import Mathlib

/-!
# Regolith: the Windows directory watcher (`compatibility_windows.go`)

A shallow embedding of `DirWatcher` (`NewDirWatcher`, `WaitForChange`,
`WaitForChangeGroup`, `Close`) and of `isPathWithinDirectory`.

The operating system is an oracle: a script of answers, one per OS call, handed
out in call order.  Every OS call used by the watcher returns a value together
with a Go `error` (or only an `error`); one answer type covers them all.  A call
made when the script is exhausted is never answered: the goroutine blocks.
A run of an operation records what it returned, the events it produced (OS calls
with their answers, and channel sends, oldest first) and the unread script.
The channel of `WaitForChangeGroup` is a parameter: the state in which the send
finds it decides whether the send completes, blocks forever or panics.
-/

namespace Regolith

/-! ## Constants of `golang.org/x/sys/windows` used by the source -/

/-- Timeout value `windows.INFINITE`. -/
def INFINITE : Nat := 0xFFFFFFFF

/-- Wait result `windows.WAIT_OBJECT_0`: the object is signalled. -/
def WAIT_OBJECT_0 : Nat := 0x00000000

/-- Wait result `windows.WAIT_ABANDONED`. -/
def WAIT_ABANDONED : Nat := 0x00000080

/-- Wait result `windows.WAIT_TIMEOUT`. -/
def WAIT_TIMEOUT : Nat := 0x00000102

/-- Wait result `windows.WAIT_FAILED`. -/
def WAIT_FAILED : Nat := 0xFFFFFFFF

/-- Filter bit `windows.FILE_NOTIFY_CHANGE_FILE_NAME`. -/
def FILE_NOTIFY_CHANGE_FILE_NAME : Nat := 0x001

/-- Filter bit `windows.FILE_NOTIFY_CHANGE_DIR_NAME`. -/
def FILE_NOTIFY_CHANGE_DIR_NAME : Nat := 0x002

/-- Filter bit `windows.FILE_NOTIFY_CHANGE_ATTRIBUTES`. -/
def FILE_NOTIFY_CHANGE_ATTRIBUTES : Nat := 0x004

/-- Filter bit `windows.FILE_NOTIFY_CHANGE_SIZE`. -/
def FILE_NOTIFY_CHANGE_SIZE : Nat := 0x008

/-- Filter bit `windows.FILE_NOTIFY_CHANGE_LAST_WRITE`. -/
def FILE_NOTIFY_CHANGE_LAST_WRITE : Nat := 0x010

/-- Filter bit `windows.FILE_NOTIFY_CHANGE_LAST_ACCESS`. -/
def FILE_NOTIFY_CHANGE_LAST_ACCESS : Nat := 0x020

/-- Filter bit `windows.FILE_NOTIFY_CHANGE_CREATION`. -/
def FILE_NOTIFY_CHANGE_CREATION : Nat := 0x040

/-- Filter bit `windows.FILE_NOTIFY_CHANGE_SECURITY`. -/
def FILE_NOTIFY_CHANGE_SECURITY : Nat := 0x100

/-! ## The operating system as a script -/

/-- A `windows.Handle` value. -/
abbrev Handle := Nat

/-- A non-nil Go `error` coming out of an OS call, identified by its code. -/
abbrev Errno := Nat

/-- The answer of the OS to one call: the returned value (a handle for
`FindFirstChangeNotification`, the `event` for `WaitForSingleObject`, unused by
the calls that return only an error) and the Go `error` (`none` is `nil`). -/
structure OSResult where
  val : Nat
  err : Option Errno
deriving DecidableEq, Repr

/-- The OS calls made by the watcher, with their arguments. -/
inductive OSCall where
  | FindFirstChangeNotification (path : String) (watchSubtree : Bool) (notifyFilter : Nat)
  | WaitForSingleObject (handle : Handle) (waitMilliseconds : Nat)
  | FindNextChangeNotification (handle : Handle)
  | CloseHandle (handle : Handle)
deriving DecidableEq, Repr

/-- An observable event of a run: an OS call with its answer (`none` when the
call is never answered) or a message sent on the interruption channel. -/
inductive Event where
  | os (call : OSCall) (answer : Option OSResult)
  | send (msg : String)
deriving DecidableEq, Repr

/-- How a call of an operation ends: it returns a value, it blocks forever, or
the goroutine panics. -/
inductive Outcome (α : Type) where
  | returned (a : α)
  | blocked
  | panicked
deriving DecidableEq, Repr

/-- The Go channel `interruptionChannel` as the send of `WaitForChangeGroup`
finds it.  `receiving`: the channel is open and the send completes (a receiver
takes the message, or the buffer has a free slot).  `stuck`: the channel is open
but unbuffered or full and nobody ever receives, so the send blocks forever.
`nilChan`: the channel is nil, a send blocks forever.  `closed`: the channel is
closed, a send panics. -/
inductive Chan where
  | receiving
  | stuck
  | nilChan
  | closed
deriving DecidableEq, Repr

/-- One run of an operation against an OS script. -/
structure Run (α : Type) where
  ret : Outcome α
  events : List Event
  rest : List OSResult
deriving Repr

/-- The messages received by the channel, in order. -/
def sent : List Event → List String
  | [] => []
  | Event.send m :: es => m :: sent es
  | Event.os _ _ :: es => sent es

/-- The calls of `WaitForSingleObject` in a trace, with their answers, in order. -/
def waits : List Event → List (Handle × Nat × Option OSResult)
  | [] => []
  | Event.os (OSCall.WaitForSingleObject h t) a :: es => (h, t, a) :: waits es
  | _ :: es => waits es

/-- The calls of `FindNextChangeNotification` in a trace, with their answers. -/
def rearms : List Event → List (Handle × Option OSResult)
  | [] => []
  | Event.os (OSCall.FindNextChangeNotification h) a :: es => (h, a) :: rearms es
  | _ :: es => rearms es

/-- The OS calls of a trace that were answered, with their answers, in order. -/
def answered : List Event → List (OSCall × OSResult)
  | [] => []
  | Event.os c (some r) :: es => (c, r) :: answered es
  | _ :: es => answered es

/-! ## The watcher -/

/-- The Go struct `DirWatcher`. -/
structure DirWatcher where
  handle : Handle
deriving DecidableEq, Repr

/-- The filter `notifyFilter` computed in `NewDirWatcher`. -/
def notifyFilter : Nat :=
  FILE_NOTIFY_CHANGE_FILE_NAME |||
    FILE_NOTIFY_CHANGE_DIR_NAME |||
    FILE_NOTIFY_CHANGE_LAST_WRITE |||
    FILE_NOTIFY_CHANGE_CREATION

/-- Go `NewDirWatcher`: registers the watch and returns `(watcher, error)`;
the watcher is `none` for Go's `nil` pointer. -/
def NewDirWatcher (path : String) (script : List OSResult) :
    Run (Option DirWatcher × Option Errno) :=
  match script with
  | [] =>
    ⟨Outcome.blocked,
      [Event.os (OSCall.FindFirstChangeNotification path true notifyFilter) none], []⟩
  | r :: rest =>
    match r.err with
    | some e =>
      ⟨Outcome.returned (none, some e),
        [Event.os (OSCall.FindFirstChangeNotification path true notifyFilter) (some r)], rest⟩
    | none =>
      ⟨Outcome.returned (some ⟨r.val⟩, none),
        [Event.os (OSCall.FindFirstChangeNotification path true notifyFilter) (some r)], rest⟩

/-- Go `(*DirWatcher).WaitForChange`: an infinite wait on the handle, then a
re-arm; the `event` of the wait is discarded. -/
def WaitForChange (d : DirWatcher) (script : List OSResult) : Run (Option Errno) :=
  match script with
  | [] =>
    ⟨Outcome.blocked, [Event.os (OSCall.WaitForSingleObject d.handle INFINITE) none], []⟩
  | w :: rest =>
    match w.err with
    | some e =>
      ⟨Outcome.returned (some e),
        [Event.os (OSCall.WaitForSingleObject d.handle INFINITE) (some w)], rest⟩
    | none =>
      match rest with
      | [] =>
        ⟨Outcome.blocked,
          [Event.os (OSCall.WaitForSingleObject d.handle INFINITE) (some w),
           Event.os (OSCall.FindNextChangeNotification d.handle) none], []⟩
      | a :: rest =>
        match a.err with
        | some e =>
          ⟨Outcome.returned (some e),
            [Event.os (OSCall.WaitForSingleObject d.handle INFINITE) (some w),
             Event.os (OSCall.FindNextChangeNotification d.handle) (some a)], rest⟩
        | none =>
          ⟨Outcome.returned none,
            [Event.os (OSCall.WaitForSingleObject d.handle INFINITE) (some w),
             Event.os (OSCall.FindNextChangeNotification d.handle) (some a)], rest⟩

/-- The `for` loop of `WaitForChangeGroup`: bounded waits, each followed by a
re-arm, until an error, `WAIT_TIMEOUT` or `WAIT_ABANDONED`. -/
def drainLoop (d : DirWatcher) (groupTimeout : Nat) : List OSResult → Run (Option Errno)
  | [] =>
    ⟨Outcome.blocked, [Event.os (OSCall.WaitForSingleObject d.handle groupTimeout) none], []⟩
  | w :: rest =>
    match w.err with
    | some e =>
      ⟨Outcome.returned (some e),
        [Event.os (OSCall.WaitForSingleObject d.handle groupTimeout) (some w)], rest⟩
    | none =>
      if w.val = WAIT_TIMEOUT ∨ w.val = WAIT_ABANDONED then
        ⟨Outcome.returned none,
          [Event.os (OSCall.WaitForSingleObject d.handle groupTimeout) (some w)], rest⟩
      else
        match rest with
        | [] =>
          ⟨Outcome.blocked,
            [Event.os (OSCall.WaitForSingleObject d.handle groupTimeout) (some w),
             Event.os (OSCall.FindNextChangeNotification d.handle) none], []⟩
        | a :: rest =>
          match a.err with
          | some e =>
            ⟨Outcome.returned (some e),
              [Event.os (OSCall.WaitForSingleObject d.handle groupTimeout) (some w),
               Event.os (OSCall.FindNextChangeNotification d.handle) (some a)], rest⟩
          | none =>
            let r := drainLoop d groupTimeout rest
            ⟨r.ret,
              Event.os (OSCall.WaitForSingleObject d.handle groupTimeout) (some w) ::
                Event.os (OSCall.FindNextChangeNotification d.handle) (some a) :: r.events,
              r.rest⟩

/-- Go `(*DirWatcher).WaitForChangeGroup`: `WaitForChange`, then the send of
`interruptionMessage` on `interruptionChannel`, then the drain loop.  The send
completes on a receiving channel and is then recorded as an event; on a stuck or
nil channel the goroutine blocks at the send, on a closed channel it panics, and
in these cases nothing is recorded and no drain wait is made. -/
def WaitForChangeGroup (d : DirWatcher) (groupTimeout : Nat) (interruptionChannel : Chan)
    (interruptionMessage : String) (script : List OSResult) : Run (Option Errno) :=
  let r := WaitForChange d script
  match r.ret with
  | Outcome.blocked => ⟨Outcome.blocked, r.events, r.rest⟩
  | Outcome.panicked => ⟨Outcome.panicked, r.events, r.rest⟩
  | Outcome.returned (some e) => ⟨Outcome.returned (some e), r.events, r.rest⟩
  | Outcome.returned none =>
    match interruptionChannel with
    | Chan.stuck => ⟨Outcome.blocked, r.events, r.rest⟩
    | Chan.nilChan => ⟨Outcome.blocked, r.events, r.rest⟩
    | Chan.closed => ⟨Outcome.panicked, r.events, r.rest⟩
    | Chan.receiving =>
      let l := drainLoop d groupTimeout r.rest
      ⟨l.ret, r.events ++ Event.send interruptionMessage :: l.events, l.rest⟩

/-- Go `(*DirWatcher).Close`: returns what `CloseHandle` returns. -/
def Close (d : DirWatcher) (script : List OSResult) : Run (Option Errno) :=
  match script with
  | [] => ⟨Outcome.blocked, [Event.os (OSCall.CloseHandle d.handle) none], []⟩
  | r :: rest => ⟨Outcome.returned r.err, [Event.os (OSCall.CloseHandle d.handle) (some r)], rest⟩

/-! ## OS scripts of the scenarios -/

/-- A wait that reports a change, without error. -/
def signalled : OSResult := ⟨WAIT_OBJECT_0, none⟩

/-- A re-arm (`FindNextChangeNotification`) that succeeds. -/
def rearmed : OSResult := ⟨0, none⟩

/-- A wait that ends with `WAIT_TIMEOUT`, without error. -/
def timedOut : OSResult := ⟨WAIT_TIMEOUT, none⟩

/-- A wait that ends with `WAIT_ABANDONED`, without error. -/
def abandoned : OSResult := ⟨WAIT_ABANDONED, none⟩

/-- The OS delivers `n` raw change signals, each wait and each re-arm succeeding. -/
def burst : Nat → List OSResult
  | 0 => []
  | n + 1 => signalled :: rearmed :: burst n

/-- The events of `n` rounds of a wait with the given timeout that reports a
change, followed by a re-arm that succeeds. -/
def burstEvents (d : DirWatcher) (groupTimeout : Nat) : Nat → List Event
  | 0 => []
  | n + 1 =>
    Event.os (OSCall.WaitForSingleObject d.handle groupTimeout) (some signalled) ::
      Event.os (OSCall.FindNextChangeNotification d.handle) (some rearmed) ::
      burstEvents d groupTimeout n

/-- A caller that calls `WaitForChange` `n` times in sequence on one watcher and
collects the returned errors; it goes no further once a call blocks. -/
def WaitForChangeTimes (d : DirWatcher) : Nat → List OSResult → Run (List (Option Errno))
  | 0, script => ⟨Outcome.returned [], [], script⟩
  | n + 1, script =>
    let r := WaitForChange d script
    match r.ret with
    | Outcome.blocked => ⟨Outcome.blocked, r.events, r.rest⟩
    | Outcome.panicked => ⟨Outcome.panicked, r.events, r.rest⟩
    | Outcome.returned e =>
      let t := WaitForChangeTimes d n r.rest
      match t.ret with
      | Outcome.blocked => ⟨Outcome.blocked, r.events ++ t.events, t.rest⟩
      | Outcome.panicked => ⟨Outcome.panicked, r.events ++ t.events, t.rest⟩
      | Outcome.returned es => ⟨Outcome.returned (e :: es), r.events ++ t.events, t.rest⟩

/-- An OS script with a handle value used twice: a registration that returns
handle 7, a `CloseHandle` that succeeds, a second registration to which the OS
gives the freed value 7 again, then a change signal and a re-arm on it. -/
def reuseScript : List OSResult :=
  [⟨7, none⟩, ⟨0, none⟩, ⟨7, none⟩, signalled, rearmed]

/-! ## Paths

Go strings are lists of characters here.  `filepath.Rel` belongs to the Go
standard library, not to this repository: `isPathWithinDirectory` takes it as a
parameter, `none` standing for a non-nil error. -/

/-- Go's `filepath.Separator` on Windows, the backslash. -/
def Separator : Char := Char.ofNat 92

/-- Go `isPathWithinDirectory`, with `filepath.Rel` as the parameter `rel`;
`strings.HasPrefix(rel, "..")` is the prefix test on the characters. -/
def isPathWithinDirectory (rel : List Char → List Char → Option (List Char))
    (path dir : List Char) : Bool :=
  if path = [] ∨ dir = [] then false
  else
    match rel dir path with
    | none => false
    | some r => !(['.', '.'].isPrefixOf r)

/-- What is left of `path` after the prefix `pre`, when `path` starts with it. -/
def stripPrefix : List Char → List Char → Option (List Char)
  | [], path => some path
  | _ :: _, [] => none
  | c :: pre, x :: path => if c = x then stripPrefix pre path else none

/-- A relative-path function on the plainest inputs of `filepath.Rel`: equal
paths give `.`, and a `targpath` made of `basepath`, a separator and a rest
gives that rest (joined to `basepath` it gives `targpath` back, as the
documentation of `filepath.Rel` requires).  No other input is answered. -/
def relOfDescendant (basepath targpath : List Char) : Option (List Char) :=
  if targpath = basepath then some ['.']
  else stripPrefix (basepath ++ [Separator]) targpath

/-- The directory `C:\a`. -/
def dirA : List Char := ['C', ':', Separator, 'a']

/-- The path `C:\a\..b`: the entry named `..b` inside the directory `C:\a`. -/
def pathDotDotB : List Char := ['C', ':', Separator, 'a', Separator, '.', '.', 'b']

/-! ## Lemmas on traces -/

theorem sent_append (xs ys : List Event) : sent (xs ++ ys) = sent xs ++ sent ys := by
  induction xs with
  | nil => rfl
  | cons x xs ih => cases x <;> simp [sent, ih]

theorem waits_append (xs ys : List Event) : waits (xs ++ ys) = waits xs ++ waits ys := by
  induction xs with
  | nil => rfl
  | cons x xs ih =>
    cases x with
    | send m => simp [waits, ih]
    | os c a => cases c <;> simp [waits, ih]

theorem rearms_append (xs ys : List Event) : rearms (xs ++ ys) = rearms xs ++ rearms ys := by
  induction xs with
  | nil => rfl
  | cons x xs ih =>
    cases x with
    | send m => simp [rearms, ih]
    | os c a => cases c <;> simp [rearms, ih]

theorem answered_append (xs ys : List Event) :
    answered (xs ++ ys) = answered xs ++ answered ys := by
  induction xs with
  | nil => rfl
  | cons x xs ih =>
    cases x with
    | send m => simp [answered, ih]
    | os c a => cases a <;> simp [answered, ih]

theorem sent_burstEvents (d : DirWatcher) (gt n : Nat) : sent (burstEvents d gt n) = [] := by
  induction n with
  | zero => rfl
  | succ n ih => simp [burstEvents, sent, ih]

theorem waits_burstEvents (d : DirWatcher) (gt n : Nat) :
    waits (burstEvents d gt n) = List.replicate n (d.handle, gt, some signalled) := by
  induction n with
  | zero => rfl
  | succ n ih => simp [burstEvents, waits, ih, List.replicate_succ]

theorem rearms_burstEvents (d : DirWatcher) (gt n : Nat) :
    rearms (burstEvents d gt n) = List.replicate n (d.handle, some rearmed) := by
  induction n with
  | zero => rfl
  | succ n ih => simp [burstEvents, rearms, ih, List.replicate_succ]

/-! ## The equations of `WaitForChange` and `WaitForChangeGroup` -/

theorem WaitForChange_err (d : DirWatcher) (w : OSResult) (rest : List OSResult) (e : Errno)
    (h : w.err = some e) :
    WaitForChange d (w :: rest) =
      ⟨Outcome.returned (some e),
        [Event.os (OSCall.WaitForSingleObject d.handle INFINITE) (some w)], rest⟩ := by
  simp only [WaitForChange, h]

theorem WaitForChange_single (d : DirWatcher) (w : OSResult) (h : w.err = none) :
    WaitForChange d [w] =
      ⟨Outcome.blocked,
        [Event.os (OSCall.WaitForSingleObject d.handle INFINITE) (some w),
         Event.os (OSCall.FindNextChangeNotification d.handle) none], []⟩ := by
  simp only [WaitForChange, h]

theorem WaitForChange_rearm_err (d : DirWatcher) (w a : OSResult) (rest : List OSResult)
    (e : Errno) (hw : w.err = none) (ha : a.err = some e) :
    WaitForChange d (w :: a :: rest) =
      ⟨Outcome.returned (some e),
        [Event.os (OSCall.WaitForSingleObject d.handle INFINITE) (some w),
         Event.os (OSCall.FindNextChangeNotification d.handle) (some a)], rest⟩ := by
  simp only [WaitForChange, hw, ha]

theorem WaitForChange_ok (d : DirWatcher) (w a : OSResult) (rest : List OSResult)
    (hw : w.err = none) (ha : a.err = none) :
    WaitForChange d (w :: a :: rest) =
      ⟨Outcome.returned none,
        [Event.os (OSCall.WaitForSingleObject d.handle INFINITE) (some w),
         Event.os (OSCall.FindNextChangeNotification d.handle) (some a)], rest⟩ := by
  simp only [WaitForChange, hw, ha]

/-- A call of `WaitForChange` that returns nil has read two answers without
error, for one infinite wait and one re-arm on the handle of the watcher. -/
theorem WaitForChange_returned_nil (d : DirWatcher) (script : List OSResult)
    (h : (WaitForChange d script).ret = Outcome.returned none) :
    ∃ w a, w.err = none ∧ a.err = none ∧
      script = w :: a :: (WaitForChange d script).rest ∧
      (WaitForChange d script).events =
        [Event.os (OSCall.WaitForSingleObject d.handle INFINITE) (some w),
         Event.os (OSCall.FindNextChangeNotification d.handle) (some a)] := by
  match script with
  | [] => simp [WaitForChange] at h
  | w :: rest =>
    cases hw : w.err with
    | some e => simp [WaitForChange_err d w rest e hw] at h
    | none =>
      match rest with
      | [] => simp [WaitForChange_single d w hw] at h
      | a :: rest =>
        cases ha : a.err with
        | some e => simp [WaitForChange_rearm_err d w a rest e hw ha] at h
        | none =>
          rw [WaitForChange_ok d w a rest hw ha]
          exact ⟨w, a, hw, ha, rfl, rfl⟩

/-- A call of `WaitForChange` that returns an error has read that error from its
last OS call: the wait, or the re-arm after a wait without error. -/
theorem WaitForChange_returned_err (d : DirWatcher) (script : List OSResult) (e : Errno)
    (h : (WaitForChange d script).ret = Outcome.returned (some e)) :
    (∃ w, w.err = some e ∧ script = w :: (WaitForChange d script).rest ∧
      (WaitForChange d script).events =
        [Event.os (OSCall.WaitForSingleObject d.handle INFINITE) (some w)]) ∨
    (∃ w a, w.err = none ∧ a.err = some e ∧
      script = w :: a :: (WaitForChange d script).rest ∧
      (WaitForChange d script).events =
        [Event.os (OSCall.WaitForSingleObject d.handle INFINITE) (some w),
         Event.os (OSCall.FindNextChangeNotification d.handle) (some a)]) := by
  match script with
  | [] => simp [WaitForChange] at h
  | w :: rest =>
    cases hw : w.err with
    | some e1 =>
      rw [WaitForChange_err d w rest e1 hw] at h ⊢
      simp only [Outcome.returned.injEq, Option.some.injEq] at h
      subst h
      exact Or.inl ⟨w, hw, rfl, rfl⟩
    | none =>
      match rest with
      | [] => simp [WaitForChange_single d w hw] at h
      | a :: rest =>
        cases ha : a.err with
        | some e1 =>
          rw [WaitForChange_rearm_err d w a rest e1 hw ha] at h ⊢
          simp only [Outcome.returned.injEq, Option.some.injEq] at h
          subst h
          exact Or.inr ⟨w, a, hw, ha, rfl, rfl⟩
        | none => simp [WaitForChange_ok d w a rest hw ha] at h

/-- A call of `WaitForChange` that blocks has made one or two OS calls, the
last of them unanswered. -/
theorem WaitForChange_blocked (d : DirWatcher) (script : List OSResult)
    (h : (WaitForChange d script).ret = Outcome.blocked) :
    (WaitForChange d script).events =
      [Event.os (OSCall.WaitForSingleObject d.handle INFINITE) none] ∨
    ∃ w, w.err = none ∧ (WaitForChange d script).events =
      [Event.os (OSCall.WaitForSingleObject d.handle INFINITE) (some w),
       Event.os (OSCall.FindNextChangeNotification d.handle) none] := by
  match script with
  | [] => exact Or.inl rfl
  | w :: rest =>
    cases hw : w.err with
    | some e => simp [WaitForChange_err d w rest e hw] at h
    | none =>
      match rest with
      | [] =>
        rw [WaitForChange_single d w hw]
        exact Or.inr ⟨w, hw, rfl⟩
      | a :: rest =>
        cases ha : a.err with
        | some e => simp [WaitForChange_rearm_err d w a rest e hw ha] at h
        | none => simp [WaitForChange_ok d w a rest hw ha] at h

/-- A call of `WaitForChange` never panics. -/
theorem WaitForChange_not_panicked (d : DirWatcher) (script : List OSResult) :
    (WaitForChange d script).ret ≠ Outcome.panicked := by
  match script with
  | [] => simp [WaitForChange]
  | w :: rest =>
    cases hw : w.err with
    | some e => simp [WaitForChange_err d w rest e hw]
    | none =>
      match rest with
      | [] => simp [WaitForChange_single d w hw]
      | a :: rest =>
        cases ha : a.err with
        | some e => simp [WaitForChange_rearm_err d w a rest e hw ha]
        | none => simp [WaitForChange_ok d w a rest hw ha]

theorem WaitForChangeGroup_of_err (d : DirWatcher) (gt : Nat) (ch : Chan) (tag : String)
    (script : List OSResult) (e : Errno)
    (h : (WaitForChange d script).ret = Outcome.returned (some e)) :
    WaitForChangeGroup d gt ch tag script =
      ⟨Outcome.returned (some e), (WaitForChange d script).events,
        (WaitForChange d script).rest⟩ := by
  simp only [WaitForChangeGroup, h]

theorem WaitForChangeGroup_of_blocked (d : DirWatcher) (gt : Nat) (ch : Chan) (tag : String)
    (script : List OSResult) (h : (WaitForChange d script).ret = Outcome.blocked) :
    WaitForChangeGroup d gt ch tag script =
      ⟨Outcome.blocked, (WaitForChange d script).events, (WaitForChange d script).rest⟩ := by
  simp only [WaitForChangeGroup, h]

theorem WaitForChangeGroup_ok (d : DirWatcher) (gt : Nat) (tag : String) (w a : OSResult)
    (rest : List OSResult) (hw : w.err = none) (ha : a.err = none) :
    WaitForChangeGroup d gt Chan.receiving tag (w :: a :: rest) =
      ⟨(drainLoop d gt rest).ret,
        Event.os (OSCall.WaitForSingleObject d.handle INFINITE) (some w) ::
          Event.os (OSCall.FindNextChangeNotification d.handle) (some a) ::
          Event.send tag :: (drainLoop d gt rest).events,
        (drainLoop d gt rest).rest⟩ := by
  simp only [WaitForChangeGroup, WaitForChange_ok d w a rest hw ha]
  rfl

/-- On a channel that does not take the send, a call of `WaitForChangeGroup`
whose first wait and re-arm succeed stops at the send: it blocks or panics, its
events are the wait and the re-arm, and the script after them is unread. -/
theorem WaitForChangeGroup_no_send (d : DirWatcher) (gt : Nat) (ch : Chan) (tag : String)
    (w a : OSResult) (rest : List OSResult) (hw : w.err = none) (ha : a.err = none)
    (hch : ch ≠ Chan.receiving) :
    ((WaitForChangeGroup d gt ch tag (w :: a :: rest)).ret = Outcome.blocked ∨
      (WaitForChangeGroup d gt ch tag (w :: a :: rest)).ret = Outcome.panicked) ∧
    (WaitForChangeGroup d gt ch tag (w :: a :: rest)).events =
      [Event.os (OSCall.WaitForSingleObject d.handle INFINITE) (some w),
       Event.os (OSCall.FindNextChangeNotification d.handle) (some a)] ∧
    (WaitForChangeGroup d gt ch tag (w :: a :: rest)).rest = rest := by
  cases ch with
  | receiving => exact absurd rfl hch
  | stuck => simp [WaitForChangeGroup, WaitForChange_ok d w a rest hw ha]
  | nilChan => simp [WaitForChangeGroup, WaitForChange_ok d w a rest hw ha]
  | closed => simp [WaitForChangeGroup, WaitForChange_ok d w a rest hw ha]

/-- A call of `WaitForChangeGroup` that returns nil had its send taken by the
channel. -/
theorem WaitForChangeGroup_returned_nil_receiving (d : DirWatcher) (gt : Nat) (ch : Chan)
    (tag : String) (script : List OSResult)
    (h : (WaitForChangeGroup d gt ch tag script).ret = Outcome.returned none) :
    ch = Chan.receiving := by
  cases hret : (WaitForChange d script).ret with
  | blocked =>
    rw [WaitForChangeGroup_of_blocked d gt ch tag script hret] at h
    simp at h
  | panicked => exact absurd hret (WaitForChange_not_panicked d script)
  | returned o =>
    cases o with
    | some e =>
      rw [WaitForChangeGroup_of_err d gt ch tag script e hret] at h
      simp at h
    | none =>
      obtain ⟨w, a, hw, ha, hs, _⟩ := WaitForChange_returned_nil d script hret
      by_contra hch
      rw [hs] at h
      rcases (WaitForChangeGroup_no_send d gt ch tag w a _ hw ha hch).1 with h1 | h1
      · rw [h1] at h
        simp at h
      · rw [h1] at h
        simp at h

/-! ## The equations of the drain loop -/

theorem drainLoop_nil (d : DirWatcher) (gt : Nat) :
    drainLoop d gt [] =
      ⟨Outcome.blocked, [Event.os (OSCall.WaitForSingleObject d.handle gt) none], []⟩ := rfl

theorem drainLoop_err (d : DirWatcher) (gt : Nat) (w : OSResult) (rest : List OSResult)
    (e : Errno) (h : w.err = some e) :
    drainLoop d gt (w :: rest) =
      ⟨Outcome.returned (some e),
        [Event.os (OSCall.WaitForSingleObject d.handle gt) (some w)], rest⟩ := by
  cases w with
  | mk v err =>
    simp only at h
    subst h
    cases rest <;> rfl

theorem drainLoop_stop (d : DirWatcher) (gt : Nat) (w : OSResult) (rest : List OSResult)
    (herr : w.err = none) (hval : w.val = WAIT_TIMEOUT ∨ w.val = WAIT_ABANDONED) :
    drainLoop d gt (w :: rest) =
      ⟨Outcome.returned none,
        [Event.os (OSCall.WaitForSingleObject d.handle gt) (some w)], rest⟩ := by
  cases w with
  | mk v err =>
    simp only at herr hval
    subst herr
    cases rest with
    | nil =>
      show (if v = WAIT_TIMEOUT ∨ v = WAIT_ABANDONED then _ else _) = _
      rw [if_pos hval]
    | cons a rest =>
      show (if v = WAIT_TIMEOUT ∨ v = WAIT_ABANDONED then _ else _) = _
      rw [if_pos hval]

theorem drainLoop_single (d : DirWatcher) (gt : Nat) (w : OSResult)
    (herr : w.err = none) (hval : ¬ (w.val = WAIT_TIMEOUT ∨ w.val = WAIT_ABANDONED)) :
    drainLoop d gt [w] =
      ⟨Outcome.blocked,
        [Event.os (OSCall.WaitForSingleObject d.handle gt) (some w),
         Event.os (OSCall.FindNextChangeNotification d.handle) none], []⟩ := by
  cases w with
  | mk v err =>
    simp only at herr hval
    subst herr
    show (if v = WAIT_TIMEOUT ∨ v = WAIT_ABANDONED then _ else _) = _
    rw [if_neg hval]

theorem drainLoop_rearm_err (d : DirWatcher) (gt : Nat) (w a : OSResult)
    (rest : List OSResult) (e : Errno) (hw : w.err = none)
    (hval : ¬ (w.val = WAIT_TIMEOUT ∨ w.val = WAIT_ABANDONED)) (ha : a.err = some e) :
    drainLoop d gt (w :: a :: rest) =
      ⟨Outcome.returned (some e),
        [Event.os (OSCall.WaitForSingleObject d.handle gt) (some w),
         Event.os (OSCall.FindNextChangeNotification d.handle) (some a)], rest⟩ := by
  cases w with
  | mk v err =>
    cases a with
    | mk u erra =>
      simp only at hw hval ha
      subst hw
      subst ha
      show (if v = WAIT_TIMEOUT ∨ v = WAIT_ABANDONED then _ else _) = _
      rw [if_neg hval]

theorem drainLoop_step (d : DirWatcher) (gt : Nat) (w a : OSResult) (rest : List OSResult)
    (hw : w.err = none) (hval : ¬ (w.val = WAIT_TIMEOUT ∨ w.val = WAIT_ABANDONED))
    (ha : a.err = none) :
    drainLoop d gt (w :: a :: rest) =
      ⟨(drainLoop d gt rest).ret,
        Event.os (OSCall.WaitForSingleObject d.handle gt) (some w) ::
          Event.os (OSCall.FindNextChangeNotification d.handle) (some a) ::
          (drainLoop d gt rest).events,
        (drainLoop d gt rest).rest⟩ := by
  cases w with
  | mk v err =>
    cases a with
    | mk u erra =>
      simp only at hw hval ha
      subst hw
      subst ha
      show (if v = WAIT_TIMEOUT ∨ v = WAIT_ABANDONED then _ else _) = _
      rw [if_neg hval]

/-- Induction along the iterations of the drain loop: a property of the script
and of the run holds of every run once it holds at each way an iteration ends. -/
theorem drainLoop_induction (d : DirWatcher) (gt : Nat)
    (P : List OSResult → Run (Option Errno) → Prop)
    (hnil : P []
      ⟨Outcome.blocked, [Event.os (OSCall.WaitForSingleObject d.handle gt) none], []⟩)
    (herr : ∀ w rest e, w.err = some e →
      P (w :: rest) ⟨Outcome.returned (some e),
        [Event.os (OSCall.WaitForSingleObject d.handle gt) (some w)], rest⟩)
    (hstop : ∀ w rest, w.err = none → (w.val = WAIT_TIMEOUT ∨ w.val = WAIT_ABANDONED) →
      P (w :: rest) ⟨Outcome.returned none,
        [Event.os (OSCall.WaitForSingleObject d.handle gt) (some w)], rest⟩)
    (hsingle : ∀ w, w.err = none → ¬ (w.val = WAIT_TIMEOUT ∨ w.val = WAIT_ABANDONED) →
      P [w] ⟨Outcome.blocked,
        [Event.os (OSCall.WaitForSingleObject d.handle gt) (some w),
         Event.os (OSCall.FindNextChangeNotification d.handle) none], []⟩)
    (hrearm : ∀ w a rest e, w.err = none →
      ¬ (w.val = WAIT_TIMEOUT ∨ w.val = WAIT_ABANDONED) → a.err = some e →
      P (w :: a :: rest) ⟨Outcome.returned (some e),
        [Event.os (OSCall.WaitForSingleObject d.handle gt) (some w),
         Event.os (OSCall.FindNextChangeNotification d.handle) (some a)], rest⟩)
    (hstep : ∀ w a rest, w.err = none →
      ¬ (w.val = WAIT_TIMEOUT ∨ w.val = WAIT_ABANDONED) → a.err = none →
      P rest (drainLoop d gt rest) →
      P (w :: a :: rest) ⟨(drainLoop d gt rest).ret,
        Event.os (OSCall.WaitForSingleObject d.handle gt) (some w) ::
          Event.os (OSCall.FindNextChangeNotification d.handle) (some a) ::
          (drainLoop d gt rest).events,
        (drainLoop d gt rest).rest⟩) :
    ∀ s, P s (drainLoop d gt s) := by
  suffices h : ∀ n s, s.length = n → P s (drainLoop d gt s) from fun s => h _ s rfl
  intro n
  induction n using Nat.strong_induction_on with
  | _ n ih =>
    intro s hlen
    match s, hlen with
    | [], _ => exact hnil
    | w :: rest, hlen =>
      cases hw : w.err with
      | some e =>
        rw [drainLoop_err d gt w rest e hw]
        exact herr w rest e hw
      | none =>
        by_cases hval : w.val = WAIT_TIMEOUT ∨ w.val = WAIT_ABANDONED
        · rw [drainLoop_stop d gt w rest hw hval]
          exact hstop w rest hw hval
        · match rest, hlen with
          | [], _ =>
            rw [drainLoop_single d gt w hw hval]
            exact hsingle w hw hval
          | a :: rest, hlen =>
            cases ha : a.err with
            | some e =>
              rw [drainLoop_rearm_err d gt w a rest e hw hval ha]
              exact hrearm w a rest e hw hval ha
            | none =>
              rw [drainLoop_step d gt w a rest hw hval ha]
              refine hstep w a rest hw hval ha (ih rest.length ?_ rest rfl)
              simp only [List.length_cons] at hlen
              omega

/-- Every event of the drain loop is a wait bounded by the group timeout or a
re-arm, on the handle of the watcher: the loop sends nothing. -/
theorem drainLoop_events (d : DirWatcher) (gt : Nat) (s : List OSResult) :
    ∀ ev ∈ (drainLoop d gt s).events,
      ∃ ans, ev = Event.os (OSCall.WaitForSingleObject d.handle gt) ans ∨
        ev = Event.os (OSCall.FindNextChangeNotification d.handle) ans := by
  refine drainLoop_induction d gt
    (fun _ r => ∀ ev ∈ r.events,
      ∃ ans, ev = Event.os (OSCall.WaitForSingleObject d.handle gt) ans ∨
        ev = Event.os (OSCall.FindNextChangeNotification d.handle) ans)
    ?_ ?_ ?_ ?_ ?_ ?_ s
  · intro ev hev
    simp only [List.mem_singleton] at hev
    exact ⟨_, Or.inl hev⟩
  · intro w rest e _ ev hev
    simp only [List.mem_singleton] at hev
    exact ⟨_, Or.inl hev⟩
  · intro w rest _ _ ev hev
    simp only [List.mem_singleton] at hev
    exact ⟨_, Or.inl hev⟩
  · intro w _ _ ev hev
    simp only [List.mem_cons, List.mem_singleton, List.not_mem_nil, or_false] at hev
    rcases hev with h | h
    · exact ⟨_, Or.inl h⟩
    · exact ⟨_, Or.inr h⟩
  · intro w a rest e _ _ _ ev hev
    simp only [List.mem_cons, List.mem_singleton, List.not_mem_nil, or_false] at hev
    rcases hev with h | h
    · exact ⟨_, Or.inl h⟩
    · exact ⟨_, Or.inr h⟩
  · intro w a rest _ _ _ ih ev hev
    simp only [List.mem_cons] at hev
    rcases hev with h | h | h
    · exact ⟨_, Or.inl h⟩
    · exact ⟨_, Or.inr h⟩
    · exact ih ev h

/-- The unread script of the drain loop is no longer than the script. -/
theorem drainLoop_rest_le (d : DirWatcher) (gt : Nat) (s : List OSResult) :
    (drainLoop d gt s).rest.length ≤ s.length := by
  refine drainLoop_induction d gt (fun s r => r.rest.length ≤ s.length) ?_ ?_ ?_ ?_ ?_ ?_ s
  · simp
  · intros; simp
  · intros; simp
  · intros; simp
  · intros; simp only [List.length_cons]; omega
  · intro w a rest _ _ _ ih
    simp only [List.length_cons]
    omega

/-- A drain loop that returns has read at least one answer. -/
theorem drainLoop_rest_lt (d : DirWatcher) (gt : Nat) (s : List OSResult) :
    (drainLoop d gt s).ret ≠ Outcome.blocked → (drainLoop d gt s).rest.length < s.length := by
  refine drainLoop_induction d gt
    (fun s r => r.ret ≠ Outcome.blocked → r.rest.length < s.length) ?_ ?_ ?_ ?_ ?_ ?_ s
  · intro h; exact absurd rfl h
  · intros; simp
  · intros; simp
  · intro w _ _ h; exact absurd rfl h
  · intros; simp only [List.length_cons]; omega
  · intro w a rest _ _ _ ih h
    have := ih h
    simp only [List.length_cons]
    omega

/-- In the drain loop an OS call that returns an error is the last event, and
the loop returns that error. -/
theorem drainLoop_error_last (d : DirWatcher) (gt : Nat) (s : List OSResult) :
    ∀ (i : Nat) (c : OSCall) (r : OSResult) (e : Errno),
      (answered (drainLoop d gt s).events)[i]? = some (c, r) → r.err = some e →
      (drainLoop d gt s).ret = Outcome.returned (some e) ∧
      ∃ pre, (drainLoop d gt s).events = pre ++ [Event.os c (some r)] ∧
        (answered pre).length = i := by
  refine drainLoop_induction d gt
    (fun _ run => ∀ (i : Nat) (c : OSCall) (r : OSResult) (e : Errno),
      (answered run.events)[i]? = some (c, r) → r.err = some e →
      run.ret = Outcome.returned (some e) ∧
      ∃ pre, run.events = pre ++ [Event.os c (some r)] ∧ (answered pre).length = i)
    ?_ ?_ ?_ ?_ ?_ ?_ s
  · intro i c r e h
    simp [answered] at h
  · intro w rest e hw i c r e1 h hr
    match i with
    | 0 =>
      simp only [answered, List.getElem?_cons_zero, Option.some.injEq, Prod.mk.injEq] at h
      obtain ⟨rfl, rfl⟩ := h
      rw [hw] at hr
      cases hr
      exact ⟨rfl, [], rfl, rfl⟩
    | i + 1 => simp [answered] at h
  · intro w rest hw _ i c r e h hr
    match i with
    | 0 =>
      simp only [answered, List.getElem?_cons_zero, Option.some.injEq, Prod.mk.injEq] at h
      obtain ⟨rfl, rfl⟩ := h
      rw [hw] at hr
      cases hr
    | i + 1 => simp [answered] at h
  · intro w hw _ i c r e h hr
    match i with
    | 0 =>
      simp only [answered, List.getElem?_cons_zero, Option.some.injEq, Prod.mk.injEq] at h
      obtain ⟨rfl, rfl⟩ := h
      rw [hw] at hr
      cases hr
    | i + 1 => simp [answered] at h
  · intro w a rest e hw _ ha i c r e1 h hr
    match i with
    | 0 =>
      simp only [answered, List.getElem?_cons_zero, Option.some.injEq, Prod.mk.injEq] at h
      obtain ⟨rfl, rfl⟩ := h
      rw [hw] at hr
      cases hr
    | 1 =>
      simp only [answered, List.getElem?_cons_succ, List.getElem?_cons_zero, Option.some.injEq,
        Prod.mk.injEq] at h
      obtain ⟨rfl, rfl⟩ := h
      rw [ha] at hr
      cases hr
      exact ⟨rfl, [_], rfl, rfl⟩
    | i + 2 => simp [answered] at h
  · intro w a rest hw _ ha ih i c r e h hr
    match i with
    | 0 =>
      simp only [answered, List.getElem?_cons_zero, Option.some.injEq, Prod.mk.injEq] at h
      obtain ⟨rfl, rfl⟩ := h
      rw [hw] at hr
      cases hr
    | 1 =>
      simp only [answered, List.getElem?_cons_succ, List.getElem?_cons_zero, Option.some.injEq,
        Prod.mk.injEq] at h
      obtain ⟨rfl, rfl⟩ := h
      rw [ha] at hr
      cases hr
    | i + 2 =>
      simp only [answered, List.getElem?_cons_succ] at h
      obtain ⟨hret, pre, hev, hpre⟩ := ih i c r e h hr
      refine ⟨hret,
        Event.os (OSCall.WaitForSingleObject d.handle gt) (some w) ::
          Event.os (OSCall.FindNextChangeNotification d.handle) (some a) :: pre, ?_, ?_⟩
      · simp only [hev, List.cons_append]
      · simp only [answered, List.length_cons, hpre]

/-! ## The drain loop on a burst -/

/-- The drain loop consumes a burst of `n` signals and stops at the first wait
that answers `WAIT_TIMEOUT` or `WAIT_ABANDONED`. -/
theorem drainLoop_burst (d : DirWatcher) (gt n : Nat) (w : OSResult) (post : List OSResult)
    (herr : w.err = none) (hval : w.val = WAIT_TIMEOUT ∨ w.val = WAIT_ABANDONED) :
    drainLoop d gt (burst n ++ w :: post) =
      ⟨Outcome.returned none,
        burstEvents d gt n ++ [Event.os (OSCall.WaitForSingleObject d.handle gt) (some w)],
        post⟩ := by
  induction n with
  | zero => simpa [burst, burstEvents] using drainLoop_stop d gt w post herr hval
  | succ n ih =>
    have hs : ¬ (signalled.val = WAIT_TIMEOUT ∨ signalled.val = WAIT_ABANDONED) := by decide
    show drainLoop d gt (signalled :: rearmed :: (burst n ++ w :: post)) = _
    rw [drainLoop_step d gt signalled rearmed _ rfl hs rfl, ih]
    rfl

/-- One call of `WaitForChangeGroup` on a burst of `n + 1` signals closed by a
wait that answers `WAIT_TIMEOUT` or `WAIT_ABANDONED`. -/
theorem WaitForChangeGroup_burst (d : DirWatcher) (gt n : Nat) (tag : String) (w : OSResult)
    (post : List OSResult) (herr : w.err = none)
    (hval : w.val = WAIT_TIMEOUT ∨ w.val = WAIT_ABANDONED) :
    WaitForChangeGroup d gt Chan.receiving tag (burst (n + 1) ++ w :: post) =
      ⟨Outcome.returned none,
        Event.os (OSCall.WaitForSingleObject d.handle INFINITE) (some signalled) ::
          Event.os (OSCall.FindNextChangeNotification d.handle) (some rearmed) ::
          Event.send tag ::
          (burstEvents d gt n ++ [Event.os (OSCall.WaitForSingleObject d.handle gt) (some w)]),
        post⟩ := by
  show WaitForChangeGroup d gt Chan.receiving tag
    (signalled :: rearmed :: (burst n ++ w :: post)) = _
  simp only [WaitForChangeGroup, WaitForChange, signalled, rearmed]
  have h := drainLoop_burst d gt n w post herr hval
  simp only [signalled, rearmed] at h
  rw [h]
  rfl

/-! ## Claims on grouped waits -/

/-- C1, counterexample: the OS delivers two change signals and then
`WAIT_TIMEOUT`, but nobody takes the send.  On a stuck channel and on a nil
channel the call blocks at the send, on a closed channel it panics; in each
case it does not return nil, the channel has received nothing, and the second
signal and the timeout are left unread after one wait and one re-arm. -/
theorem WaitForChangeGroup_burst_no_receiver_counterexample :
    (WaitForChangeGroup ⟨7⟩ 50 Chan.stuck "src" (burst 2 ++ timedOut :: [])).ret =
      Outcome.blocked ∧
    sent (WaitForChangeGroup ⟨7⟩ 50 Chan.stuck "src" (burst 2 ++ timedOut :: [])).events =
      [] ∧
    (WaitForChangeGroup ⟨7⟩ 50 Chan.stuck "src" (burst 2 ++ timedOut :: [])).rest =
      [signalled, rearmed, timedOut] ∧
    waits (WaitForChangeGroup ⟨7⟩ 50 Chan.stuck "src" (burst 2 ++ timedOut :: [])).events =
      [(7, INFINITE, some signalled)] ∧
    (WaitForChangeGroup ⟨7⟩ 50 Chan.nilChan "src" (burst 2 ++ timedOut :: [])).ret =
      Outcome.blocked ∧
    sent (WaitForChangeGroup ⟨7⟩ 50 Chan.nilChan "src" (burst 2 ++ timedOut :: [])).events =
      [] ∧
    (WaitForChangeGroup ⟨7⟩ 50 Chan.closed "src" (burst 2 ++ timedOut :: [])).ret =
      Outcome.panicked ∧
    sent (WaitForChangeGroup ⟨7⟩ 50 Chan.closed "src" (burst 2 ++ timedOut :: [])).events =
      [] := by
  decide

/-- C1, amended: for every `n ≥ 1` and every tag, when the channel takes the
send, the OS delivers `n` raw change signals (every wait and every re-arm
succeeding) and answers the next wait with `WAIT_TIMEOUT`, one call of
`WaitForChangeGroup` returns nil, the channel receives the tag exactly once, and
all `n` signals are consumed: `n` waits that report a change (the first with an
infinite timeout, the others bounded by the group timeout), one final timed-out
wait, `n` re-arms, and the script after the timeout is left unread. -/
theorem WaitForChangeGroup_burst_one_tag (n : Nat) (hn : 1 ≤ n) (d : DirWatcher) (gt : Nat)
    (ch : Chan) (hch : ch = Chan.receiving) (tag : String) (post : List OSResult) :
    (WaitForChangeGroup d gt ch tag (burst n ++ timedOut :: post)).ret = Outcome.returned none ∧
    sent (WaitForChangeGroup d gt ch tag (burst n ++ timedOut :: post)).events = [tag] ∧
    (WaitForChangeGroup d gt ch tag (burst n ++ timedOut :: post)).rest = post ∧
    waits (WaitForChangeGroup d gt ch tag (burst n ++ timedOut :: post)).events =
      (d.handle, INFINITE, some signalled) ::
        (List.replicate (n - 1) (d.handle, gt, some signalled) ++
          [(d.handle, gt, some timedOut)]) ∧
    rearms (WaitForChangeGroup d gt ch tag (burst n ++ timedOut :: post)).events =
      List.replicate n (d.handle, some rearmed) := by
  subst hch
  obtain ⟨m, rfl⟩ : ∃ m, n = m + 1 := ⟨n - 1, by omega⟩
  rw [WaitForChangeGroup_burst d gt m tag timedOut post rfl (Or.inl rfl)]
  refine ⟨rfl, ?_, rfl, ?_, ?_⟩
  · simp [sent, sent_append, sent_burstEvents]
  · simp [waits, waits_append, waits_burstEvents]
  · simp [rearms, rearms_append, rearms_burstEvents, List.replicate_succ]

/-- Witness of C1, amended: a burst of three signals, then a timeout, on a
channel that takes the send. -/
theorem WaitForChangeGroup_burst_one_tag_witness :
    1 ≤ 3 ∧
    (WaitForChangeGroup ⟨7⟩ 50 Chan.receiving "src" (burst 3 ++ timedOut :: [])).ret =
      Outcome.returned none ∧
    sent (WaitForChangeGroup ⟨7⟩ 50 Chan.receiving "src" (burst 3 ++ timedOut :: [])).events =
      ["src"] :=
  ⟨by decide,
    (WaitForChangeGroup_burst_one_tag 3 (by decide) ⟨7⟩ 50 Chan.receiving rfl "src" []).1,
    (WaitForChangeGroup_burst_one_tag 3 (by decide) ⟨7⟩ 50 Chan.receiving rfl "src" []).2.1⟩

/-- C2, counterexample: a burst of one signal, a `WAIT_TIMEOUT`, a burst of one
signal and a `WAIT_TIMEOUT`; the send of the first call is taken, the send of
the second call is not (as on a channel with one buffer slot that nobody
drains).  The first call returns nil, the second call blocks at its send, and
the channel has received one message, not two. -/
theorem WaitForChangeGroup_two_bursts_no_receiver_counterexample :
    (WaitForChangeGroup ⟨7⟩ 50 Chan.receiving "first"
      (burst 1 ++ timedOut :: (burst 1 ++ timedOut :: []))).ret = Outcome.returned none ∧
    (WaitForChangeGroup ⟨7⟩ 50 Chan.stuck "second"
      (WaitForChangeGroup ⟨7⟩ 50 Chan.receiving "first"
        (burst 1 ++ timedOut :: (burst 1 ++ timedOut :: []))).rest).ret = Outcome.blocked ∧
    sent ((WaitForChangeGroup ⟨7⟩ 50 Chan.receiving "first"
        (burst 1 ++ timedOut :: (burst 1 ++ timedOut :: []))).events ++
      (WaitForChangeGroup ⟨7⟩ 50 Chan.stuck "second"
        (WaitForChangeGroup ⟨7⟩ 50 Chan.receiving "first"
          (burst 1 ++ timedOut :: (burst 1 ++ timedOut :: []))).rest).events) = ["first"] := by
  decide

/-- C2, amended: for every `a ≥ 1` and `b ≥ 1`, on the script made of a burst of
`a` signals, a `WAIT_TIMEOUT`, a burst of `b` signals and a `WAIT_TIMEOUT`, when
the channel takes the send of each call, two consecutive calls of
`WaitForChangeGroup` on the same watcher both return nil and the channel
receives exactly two messages, the tag of the first call before the tag of the
second. -/
theorem WaitForChangeGroup_two_bursts (a b : Nat) (ha : 1 ≤ a) (hb : 1 ≤ b) (d : DirWatcher)
    (gt : Nat) (ch1 ch2 : Chan) (hch1 : ch1 = Chan.receiving) (hch2 : ch2 = Chan.receiving)
    (tag1 tag2 : String) (post : List OSResult) :
    (WaitForChangeGroup d gt ch1 tag1
      (burst a ++ timedOut :: (burst b ++ timedOut :: post))).ret = Outcome.returned none ∧
    (WaitForChangeGroup d gt ch2 tag2
      (WaitForChangeGroup d gt ch1 tag1
        (burst a ++ timedOut :: (burst b ++ timedOut :: post))).rest).ret =
      Outcome.returned none ∧
    sent ((WaitForChangeGroup d gt ch1 tag1
        (burst a ++ timedOut :: (burst b ++ timedOut :: post))).events ++
      (WaitForChangeGroup d gt ch2 tag2
        (WaitForChangeGroup d gt ch1 tag1
          (burst a ++ timedOut :: (burst b ++ timedOut :: post))).rest).events) =
      [tag1, tag2] ∧
    (WaitForChangeGroup d gt ch2 tag2
      (WaitForChangeGroup d gt ch1 tag1
        (burst a ++ timedOut :: (burst b ++ timedOut :: post))).rest).rest = post := by
  subst hch1
  subst hch2
  obtain ⟨m, rfl⟩ : ∃ m, a = m + 1 := ⟨a - 1, by omega⟩
  obtain ⟨k, rfl⟩ : ∃ k, b = k + 1 := ⟨b - 1, by omega⟩
  have h1 := WaitForChangeGroup_burst d gt m tag1 timedOut
    (burst (k + 1) ++ timedOut :: post) rfl (Or.inl rfl)
  have h2 := WaitForChangeGroup_burst d gt k tag2 timedOut post rfl (Or.inl rfl)
  have hrest : (WaitForChangeGroup d gt Chan.receiving tag1
      (burst (m + 1) ++ timedOut :: (burst (k + 1) ++ timedOut :: post))).rest =
      burst (k + 1) ++ timedOut :: post := by rw [h1]
  rw [hrest, h1, h2]
  refine ⟨rfl, rfl, ?_, rfl⟩
  simp [sent, sent_append, sent_burstEvents]

/-- Witness of C2, amended: a burst of one signal, silence, a burst of two
signals, on a channel that takes both sends. -/
theorem WaitForChangeGroup_two_bursts_witness :
    1 ≤ 1 ∧ 1 ≤ 2 ∧
    sent ((WaitForChangeGroup ⟨7⟩ 50 Chan.receiving "first"
        (burst 1 ++ timedOut :: (burst 2 ++ timedOut :: []))).events ++
      (WaitForChangeGroup ⟨7⟩ 50 Chan.receiving "second"
        (WaitForChangeGroup ⟨7⟩ 50 Chan.receiving "first"
          (burst 1 ++ timedOut :: (burst 2 ++ timedOut :: []))).rest).events) =
      ["first", "second"] :=
  ⟨by decide, by decide,
    (WaitForChangeGroup_two_bursts 1 2 (by decide) (by decide) ⟨7⟩ 50 Chan.receiving
      Chan.receiving rfl rfl "first" "second" []).2.2.1⟩

/-! ## Claims on single waits -/

/-- The caller of `n` waits, on a script that delivers `n` signals one per call. -/
theorem WaitForChangeTimes_burst (d : DirWatcher) (n : Nat) (post : List OSResult) :
    WaitForChangeTimes d n (burst n ++ post) =
      ⟨Outcome.returned (List.replicate n none), burstEvents d INFINITE n, post⟩ := by
  induction n with
  | zero => rfl
  | succ n ih =>
    show WaitForChangeTimes d (n + 1) (signalled :: rearmed :: (burst n ++ post)) = _
    simp only [WaitForChangeTimes, WaitForChange_ok d signalled rearmed _ rfl rfl, ih]
    rfl

/-- C3: for every `n`, `n` consecutive calls of `WaitForChange` against an OS
that delivers `n` raw signals one per call (waits and re-arms succeeding) all
return nil, so nil is returned exactly `n` times, and the calls perform `n`
infinite waits each followed by one re-arm of the same handle; moreover every
call of `WaitForChange` that returns nil, on any script, has performed exactly
one infinite wait on the handle followed by exactly one re-arm of that handle,
both answered without error. -/
theorem WaitForChange_n_times (d : DirWatcher) (n : Nat) (post : List OSResult) :
    (WaitForChangeTimes d n (burst n ++ post)).ret =
      Outcome.returned (List.replicate n none) ∧
    (WaitForChangeTimes d n (burst n ++ post)).rest = post ∧
    waits (WaitForChangeTimes d n (burst n ++ post)).events =
      List.replicate n (d.handle, INFINITE, some signalled) ∧
    rearms (WaitForChangeTimes d n (burst n ++ post)).events =
      List.replicate n (d.handle, some rearmed) ∧
    (WaitForChangeTimes d n (burst n ++ post)).events = burstEvents d INFINITE n ∧
    ∀ script : List OSResult, (WaitForChange d script).ret = Outcome.returned none →
      ∃ w a, w.err = none ∧ a.err = none ∧
        script = w :: a :: (WaitForChange d script).rest ∧
        (WaitForChange d script).events =
          [Event.os (OSCall.WaitForSingleObject d.handle INFINITE) (some w),
           Event.os (OSCall.FindNextChangeNotification d.handle) (some a)] := by
  rw [WaitForChangeTimes_burst]
  exact ⟨rfl, rfl, waits_burstEvents d INFINITE n,
    rearms_burstEvents d INFINITE n, rfl, fun script h => WaitForChange_returned_nil d script h⟩

/-- Witness of C3: three calls against three signals. -/
theorem WaitForChange_n_times_witness :
    (WaitForChangeTimes ⟨7⟩ 3 (burst 3 ++ [])).ret = Outcome.returned [none, none, none] ∧
    (WaitForChange ⟨7⟩ [signalled, rearmed]).events =
      [Event.os (OSCall.WaitForSingleObject 7 INFINITE) (some signalled),
       Event.os (OSCall.FindNextChangeNotification 7) (some rearmed)] :=
  ⟨(WaitForChange_n_times ⟨7⟩ 3 []).1,
    by
      obtain ⟨w, a, _, _, hs, he⟩ :=
        (WaitForChange_n_times ⟨7⟩ 3 []).2.2.2.2.2 [signalled, rearmed] rfl
      have hw : w = signalled := ((List.cons.injEq _ _ _ _).mp hs).1.symm
      have ha : a = rearmed :=
        ((List.cons.injEq _ _ _ _).mp ((List.cons.injEq _ _ _ _).mp hs).2).1.symm
      rw [he, hw, ha]⟩

/-! ## Order of the send and the drain waits -/

/-- The shape of the events of `WaitForChangeGroup`: either the initial
`WaitForChange` does not return nil and the events are one wait, or one wait and
one re-arm, or it returns nil and the events are the wait, the re-arm, the send
and then the events of the drain loop. -/
theorem WaitForChangeGroup_shape (d : DirWatcher) (gt : Nat) (ch : Chan) (tag : String)
    (script : List OSResult) :
    (∃ x, (WaitForChangeGroup d gt ch tag script).events =
      [Event.os (OSCall.WaitForSingleObject d.handle INFINITE) x]) ∨
    (∃ x y, (WaitForChangeGroup d gt ch tag script).events =
      [Event.os (OSCall.WaitForSingleObject d.handle INFINITE) x,
       Event.os (OSCall.FindNextChangeNotification d.handle) y]) ∨
    (∃ w a rest, w.err = none ∧ a.err = none ∧ script = w :: a :: rest ∧
      (WaitForChangeGroup d gt ch tag script).events =
        Event.os (OSCall.WaitForSingleObject d.handle INFINITE) (some w) ::
          Event.os (OSCall.FindNextChangeNotification d.handle) (some a) ::
          Event.send tag :: (drainLoop d gt rest).events) := by
  cases h : (WaitForChange d script).ret with
  | blocked =>
    rw [WaitForChangeGroup_of_blocked d gt ch tag script h]
    rcases WaitForChange_blocked d script h with h1 | ⟨w, _, h1⟩
    · exact Or.inl ⟨_, h1⟩
    · exact Or.inr (Or.inl ⟨_, _, h1⟩)
  | returned o =>
    cases o with
    | some e =>
      rw [WaitForChangeGroup_of_err d gt ch tag script e h]
      rcases WaitForChange_returned_err d script e h with ⟨w, _, _, h1⟩ | ⟨w, a, _, _, _, h1⟩
      · exact Or.inl ⟨_, h1⟩
      · exact Or.inr (Or.inl ⟨_, _, h1⟩)
    | none =>
      obtain ⟨w, a, hw, ha, hs, _⟩ := WaitForChange_returned_nil d script h
      by_cases hch : ch = Chan.receiving
      · subst hch
        refine Or.inr (Or.inr ⟨w, a, _, hw, ha, hs, ?_⟩)
        rw [hs, WaitForChangeGroup_ok d gt tag w a _ hw ha, ← hs]
      · refine Or.inr (Or.inl ⟨some w, some a, ?_⟩)
        rw [hs]
        exact (WaitForChangeGroup_no_send d gt ch tag w a _ hw ha hch).2.1
  | panicked => exact absurd h (WaitForChange_not_panicked d script)

/-- C6: in every execution of `WaitForChangeGroup`, whatever the state of the
channel, a send to the channel is the third event, it carries the tag, and it
comes right after a first wait and a first re-arm that both succeeded; every
wait other than the first one (every drain wait) comes after that send; and
when the initial `WaitForChange` returns an error, `WaitForChangeGroup` returns
that error with the events of `WaitForChange` only: nothing sent, and no wait
besides the first one. -/
theorem WaitForChangeGroup_send_before_drain (d : DirWatcher) (gt : Nat) (ch : Chan)
    (tag : String)
    (script : List OSResult) :
    (∀ (i : Nat) (m : String),
      (WaitForChangeGroup d gt ch tag script).events[i]? = some (Event.send m) →
      i = 2 ∧ m = tag ∧ ∃ w a, w.err = none ∧ a.err = none ∧
        (WaitForChangeGroup d gt ch tag script).events[0]? =
          some (Event.os (OSCall.WaitForSingleObject d.handle INFINITE) (some w)) ∧
        (WaitForChangeGroup d gt ch tag script).events[1]? =
          some (Event.os (OSCall.FindNextChangeNotification d.handle) (some a))) ∧
    (∀ (j : Nat) (h t : Nat) (ans : Option OSResult),
      (WaitForChangeGroup d gt ch tag script).events[j]? =
        some (Event.os (OSCall.WaitForSingleObject h t) ans) →
      j ≠ 0 →
      2 < j ∧ t = gt ∧
        (WaitForChangeGroup d gt ch tag script).events[2]? = some (Event.send tag)) ∧
    (∀ e : Errno, (WaitForChange d script).ret = Outcome.returned (some e) →
      (WaitForChangeGroup d gt ch tag script).ret = Outcome.returned (some e) ∧
      (WaitForChangeGroup d gt ch tag script).events = (WaitForChange d script).events ∧
      sent (WaitForChangeGroup d gt ch tag script).events = [] ∧
      (waits (WaitForChangeGroup d gt ch tag script).events).length = 1) := by
  refine ⟨?_, ?_, ?_⟩
  · intro i m h
    rcases WaitForChangeGroup_shape d gt ch tag script with
      ⟨x, hev⟩ | ⟨x, y, hev⟩ | ⟨w, a, rest, hw, ha, _, hev⟩
    · rw [hev] at h
      rcases i with _ | i <;> simp at h
    · rw [hev] at h
      rcases i with _ | _ | i <;> simp at h
    · rw [hev] at h ⊢
      rcases i with _ | _ | _ | i
      · simp at h
      · simp at h
      · simp only [zero_add, List.getElem?_cons_succ, List.getElem?_cons_zero,
          Option.some.injEq, Event.send.injEq] at h
        exact ⟨rfl, h.symm, w, a, hw, ha, rfl, rfl⟩
      · simp only [List.getElem?_cons_succ] at h
        obtain ⟨ans, h1 | h1⟩ := drainLoop_events d gt rest _ (List.getElem?_mem h)
        · exact absurd h1 (by simp)
        · exact absurd h1 (by simp)
  · intro j h t ans hj hj0
    rcases WaitForChangeGroup_shape d gt ch tag script with
      ⟨x, hev⟩ | ⟨x, y, hev⟩ | ⟨w, a, rest, _, _, _, hev⟩
    · rw [hev] at hj
      rcases j with _ | j
      · exact absurd rfl hj0
      · simp at hj
    · rw [hev] at hj
      rcases j with _ | _ | j
      · exact absurd rfl hj0
      · simp at hj
      · simp at hj
    · rw [hev] at hj ⊢
      rcases j with _ | _ | _ | j
      · exact absurd rfl hj0
      · simp at hj
      · simp at hj
      · simp only [List.getElem?_cons_succ] at hj
        refine ⟨by omega, ?_, by simp⟩
        obtain ⟨ans1, h1 | h1⟩ := drainLoop_events d gt rest _ (List.getElem?_mem hj)
        · simp only [Event.os.injEq, OSCall.WaitForSingleObject.injEq] at h1
          exact h1.1.2
        · exact absurd h1 (by simp)
  · intro e h
    rw [WaitForChangeGroup_of_err d gt ch tag script e h]
    refine ⟨rfl, rfl, ?_, ?_⟩
    · rcases WaitForChange_returned_err d script e h with ⟨w, _, _, h1⟩ | ⟨w, a, _, _, _, h1⟩
      · simp only [h1, sent]
      · simp only [h1, sent]
    · rcases WaitForChange_returned_err d script e h with ⟨w, _, _, h1⟩ | ⟨w, a, _, _, _, h1⟩
      · simp only [h1, waits, List.length_singleton]
      · simp only [h1, waits, List.length_singleton]

/-- Witness of C6: a run whose re-arm fails sends nothing, and in a run that
succeeds the drain wait, event 3, comes after the send, event 2. -/
theorem WaitForChangeGroup_send_before_drain_witness :
    ((WaitForChangeGroup ⟨7⟩ 50 Chan.receiving "src" [signalled, ⟨0, some 5⟩]).ret =
        Outcome.returned (some 5) ∧
      sent (WaitForChangeGroup ⟨7⟩ 50 Chan.receiving "src" [signalled, ⟨0, some 5⟩]).events =
        []) ∧
    (2 < 3 ∧ 50 = 50 ∧
      (WaitForChangeGroup ⟨7⟩ 50 Chan.receiving "src"
        [signalled, rearmed, timedOut]).events[2]? = some (Event.send "src")) :=
  ⟨⟨((WaitForChangeGroup_send_before_drain ⟨7⟩ 50 Chan.receiving "src"
        [signalled, ⟨0, some 5⟩]).2.2 5 (by decide)).1,
      ((WaitForChangeGroup_send_before_drain ⟨7⟩ 50 Chan.receiving "src"
        [signalled, ⟨0, some 5⟩]).2.2 5 (by decide)).2.2.1⟩,
    (WaitForChangeGroup_send_before_drain ⟨7⟩ 50 Chan.receiving "src"
      [signalled, rearmed, timedOut]).2.1 3 7 50 (some timedOut) (by decide) (by decide)⟩

/-! ## Errors -/

/-- The drain loop sends nothing. -/
theorem drainLoop_sent (d : DirWatcher) (gt : Nat) (s : List OSResult) :
    sent (drainLoop d gt s).events = [] := by
  have h := drainLoop_events d gt s
  generalize (drainLoop d gt s).events = l at h
  induction l with
  | nil => rfl
  | cons x l ih =>
    obtain ⟨ans, hx | hx⟩ := h x (List.mem_cons_self x l)
    · rw [hx]
      exact ih (fun ev hev => h ev (List.mem_cons_of_mem x hev))
    · rw [hx]
      exact ih (fun ev hev => h ev (List.mem_cons_of_mem x hev))

/-- In `WaitForChange` an OS call that returns an error is the last event, and
`WaitForChange` returns that error. -/
theorem WaitForChange_error_last (d : DirWatcher) (script : List OSResult) (i : Nat)
    (c : OSCall) (r : OSResult) (e : Errno)
    (h : (answered (WaitForChange d script).events)[i]? = some (c, r)) (hr : r.err = some e) :
    (WaitForChange d script).ret = Outcome.returned (some e) ∧
    ∃ pre, (WaitForChange d script).events = pre ++ [Event.os c (some r)] ∧
      (answered pre).length = i := by
  match script with
  | [] => simp [WaitForChange, answered] at h
  | w :: rest =>
    cases hw : w.err with
    | some e1 =>
      rw [WaitForChange_err d w rest e1 hw] at h ⊢
      rcases i with _ | i
      · simp only [answered, List.getElem?_cons_zero, Option.some.injEq, Prod.mk.injEq] at h
        obtain ⟨rfl, rfl⟩ := h
        rw [hw] at hr
        cases hr
        exact ⟨rfl, [], rfl, rfl⟩
      · simp [answered] at h
    | none =>
      match rest with
      | [] =>
        rw [WaitForChange_single d w hw] at h
        rcases i with _ | i
        · simp only [answered, List.getElem?_cons_zero, Option.some.injEq, Prod.mk.injEq] at h
          obtain ⟨rfl, rfl⟩ := h
          rw [hw] at hr
          cases hr
        · simp [answered] at h
      | a :: rest =>
        have hshape : (WaitForChange d (w :: a :: rest)).events =
            [Event.os (OSCall.WaitForSingleObject d.handle INFINITE) (some w),
             Event.os (OSCall.FindNextChangeNotification d.handle) (some a)] := by
          cases ha : a.err with
          | some e1 => rw [WaitForChange_rearm_err d w a rest e1 hw ha]
          | none => rw [WaitForChange_ok d w a rest hw ha]
        rw [hshape] at h ⊢
        rcases i with _ | _ | i
        · simp only [answered, List.getElem?_cons_zero, Option.some.injEq, Prod.mk.injEq] at h
          obtain ⟨rfl, rfl⟩ := h
          rw [hw] at hr
          cases hr
        · simp only [answered, zero_add, List.getElem?_cons_succ, List.getElem?_cons_zero,
            Option.some.injEq, Prod.mk.injEq] at h
          obtain ⟨rfl, rfl⟩ := h
          rw [WaitForChange_rearm_err d w a rest e hw hr]
          exact ⟨rfl, [_], rfl, rfl⟩
        · simp [answered] at h

/-- In `WaitForChangeGroup` an OS call that returns an error is the last event,
and `WaitForChangeGroup` returns that error. -/
theorem WaitForChangeGroup_error_last (d : DirWatcher) (gt : Nat) (ch : Chan) (tag : String)
    (script : List OSResult) (i : Nat) (c : OSCall) (r : OSResult) (e : Errno)
    (h : (answered (WaitForChangeGroup d gt ch tag script).events)[i]? = some (c, r))
    (hr : r.err = some e) :
    (WaitForChangeGroup d gt ch tag script).ret = Outcome.returned (some e) ∧
    ∃ pre, (WaitForChangeGroup d gt ch tag script).events = pre ++ [Event.os c (some r)] ∧
      (answered pre).length = i := by
  cases hret : (WaitForChange d script).ret with
  | blocked =>
    rw [WaitForChangeGroup_of_blocked d gt ch tag script hret] at h
    obtain ⟨h1, _⟩ := WaitForChange_error_last d script i c r e h hr
    rw [hret] at h1
    cases h1
  | returned o =>
    cases o with
    | some e1 =>
      rw [WaitForChangeGroup_of_err d gt ch tag script e1 hret] at h ⊢
      obtain ⟨h1, h2⟩ := WaitForChange_error_last d script i c r e h hr
      rw [hret] at h1
      exact ⟨h1, h2⟩
    | none =>
      obtain ⟨w, a, hw, ha, hs, _⟩ := WaitForChange_returned_nil d script hret
      generalize (WaitForChange d script).rest = rest at hs
      subst hs
      by_cases hch : ch = Chan.receiving
      swap
      · rw [(WaitForChangeGroup_no_send d gt ch tag w a rest hw ha hch).2.1] at h
        rcases i with _ | _ | i
        · simp only [answered, List.getElem?_cons_zero, Option.some.injEq, Prod.mk.injEq] at h
          obtain ⟨rfl, rfl⟩ := h
          rw [hw] at hr
          cases hr
        · simp only [answered, zero_add, List.getElem?_cons_succ, List.getElem?_cons_zero,
            Option.some.injEq, Prod.mk.injEq] at h
          obtain ⟨rfl, rfl⟩ := h
          rw [ha] at hr
          cases hr
        · simp [answered] at h
      subst hch
      rw [WaitForChangeGroup_ok d gt tag w a rest hw ha] at h ⊢
      rcases i with _ | _ | i
      · simp only [answered, List.getElem?_cons_zero, Option.some.injEq, Prod.mk.injEq] at h
        obtain ⟨rfl, rfl⟩ := h
        rw [hw] at hr
        cases hr
      · simp only [answered, zero_add, List.getElem?_cons_succ, List.getElem?_cons_zero,
          Option.some.injEq, Prod.mk.injEq] at h
        obtain ⟨rfl, rfl⟩ := h
        rw [ha] at hr
        cases hr
      · simp only [answered, List.getElem?_cons_succ] at h
        obtain ⟨h1, pre, hev, hpre⟩ := drainLoop_error_last d gt rest i c r e h hr
        refine ⟨h1,
          Event.os (OSCall.WaitForSingleObject d.handle INFINITE) (some w) ::
            Event.os (OSCall.FindNextChangeNotification d.handle) (some a) ::
            Event.send tag :: pre, ?_, ?_⟩
        · simp only [hev, List.cons_append]
        · simp only [answered, List.length_cons, hpre]
  | panicked => exact absurd hret (WaitForChange_not_panicked d script)

/-- C5: for every OS script in which the first wait and the first re-arm
succeed and a later OS call of `WaitForChangeGroup` (a drain step: a bounded wait
or a re-arm) returns an error, `WaitForChangeGroup` returns that error, the
erroring call is its last event, and the channel has received the tag exactly
once. -/
theorem WaitForChangeGroup_drain_error_keeps_send (d : DirWatcher) (gt : Nat) (ch : Chan)
    (tag : String) (w a : OSResult) (rest : List OSResult) (hw : w.err = none) (ha : a.err = none)
    (i : Nat) (c : OSCall) (r : OSResult) (e : Errno) (hi : 2 ≤ i)
    (hc : (answered (WaitForChangeGroup d gt ch tag (w :: a :: rest)).events)[i]? = some (c, r))
    (he : r.err = some e) :
    (WaitForChangeGroup d gt ch tag (w :: a :: rest)).ret = Outcome.returned (some e) ∧
    sent (WaitForChangeGroup d gt ch tag (w :: a :: rest)).events = [tag] ∧
    (c = OSCall.WaitForSingleObject d.handle gt ∨
      c = OSCall.FindNextChangeNotification d.handle) ∧
    (answered (WaitForChangeGroup d gt ch tag (w :: a :: rest)).events).length = i + 1 := by
  obtain ⟨h1, pre, hev, hpre⟩ :=
    WaitForChangeGroup_error_last d gt ch tag (w :: a :: rest) i c r e hc he
  have hch : ch = Chan.receiving := by
    by_contra hne
    rw [(WaitForChangeGroup_no_send d gt ch tag w a rest hw ha hne).2.1] at hc
    obtain ⟨j, rfl⟩ : ∃ j, i = j + 2 := ⟨i - 2, by omega⟩
    simp [answered] at hc
  subst hch
  refine ⟨h1, ?_, ?_, ?_⟩
  · rw [WaitForChangeGroup_ok d gt tag w a rest hw ha]
    simp only [sent, drainLoop_sent]
  · rw [WaitForChangeGroup_ok d gt tag w a rest hw ha] at hc
    obtain ⟨j, rfl⟩ : ∃ j, i = j + 2 := ⟨i - 2, by omega⟩
    simp only [answered, List.getElem?_cons_succ] at hc
    have hmem : Event.os c (some r) ∈ (drainLoop d gt rest).events := by
      obtain ⟨_, pre1, hev1, _⟩ := drainLoop_error_last d gt rest j c r e hc he
      rw [hev1]
      simp
    obtain ⟨ans, h2 | h2⟩ := drainLoop_events d gt rest _ hmem
    · simp only [Event.os.injEq] at h2
      exact Or.inl h2.1
    · simp only [Event.os.injEq] at h2
      exact Or.inr h2.1
  · rw [hev, answered_append]
    simp only [answered, List.length_append, List.length_singleton, hpre]

/-- Witness of C5: the second drain wait fails with error 6. -/
theorem WaitForChangeGroup_drain_error_keeps_send_witness :
    (WaitForChangeGroup ⟨7⟩ 50 Chan.receiving "src"
      (signalled :: rearmed :: [signalled, rearmed, ⟨WAIT_FAILED, some 6⟩, signalled])).ret =
      Outcome.returned (some 6) ∧
    sent (WaitForChangeGroup ⟨7⟩ 50 Chan.receiving "src"
      (signalled :: rearmed :: [signalled, rearmed, ⟨WAIT_FAILED, some 6⟩, signalled])).events =
      ["src"] :=
  ⟨(WaitForChangeGroup_drain_error_keeps_send ⟨7⟩ 50 Chan.receiving "src" signalled rearmed
      [signalled, rearmed, ⟨WAIT_FAILED, some 6⟩, signalled] rfl rfl 4
      (OSCall.WaitForSingleObject 7 50) ⟨WAIT_FAILED, some 6⟩ 6 (by decide) (by decide) rfl).1,
    (WaitForChangeGroup_drain_error_keeps_send ⟨7⟩ 50 Chan.receiving "src" signalled rearmed
      [signalled, rearmed, ⟨WAIT_FAILED, some 6⟩, signalled] rfl rfl 4
      (OSCall.WaitForSingleObject 7 50) ⟨WAIT_FAILED, some 6⟩ 6 (by decide) (by decide) rfl).2.1⟩

/-- C9: no watcher operation retries or swallows an OS error: in
`NewDirWatcher`, `WaitForChange` and `WaitForChangeGroup`, an OS call that
returns an error is the last event of the operation (no further OS call, no
send) and the operation returns that same error; and `NewDirWatcher`, once the
registration call is answered, returns the error of that call together with a
watcher that is nil exactly when the call errors and otherwise holds the handle
the OS returned. -/
theorem os_error_ends_operation (d : DirWatcher) (gt : Nat) (ch : Chan) (tag : String)
    (path : String)
    (script : List OSResult) (i : Nat) (c : OSCall) (r : OSResult) (e : Errno)
    (he : r.err = some e) :
    ((answered (NewDirWatcher path script).events)[i]? = some (c, r) →
      (NewDirWatcher path script).ret = Outcome.returned (none, some e) ∧
      (NewDirWatcher path script).events = [Event.os c (some r)] ∧ i = 0) ∧
    ((answered (WaitForChange d script).events)[i]? = some (c, r) →
      (WaitForChange d script).ret = Outcome.returned (some e) ∧
      ∃ pre, (WaitForChange d script).events = pre ++ [Event.os c (some r)] ∧
        (answered pre).length = i) ∧
    ((answered (WaitForChangeGroup d gt ch tag script).events)[i]? = some (c, r) →
      (WaitForChangeGroup d gt ch tag script).ret = Outcome.returned (some e) ∧
      ∃ pre, (WaitForChangeGroup d gt ch tag script).events = pre ++ [Event.os c (some r)] ∧
        (answered pre).length = i) ∧
    (∀ (x : OSResult) (rest : List OSResult),
      ∃ dw, (NewDirWatcher path (x :: rest)).ret = Outcome.returned (dw, x.err) ∧
        (dw = none ↔ x.err ≠ none) ∧ (x.err = none → dw = some ⟨x.val⟩)) := by
  refine ⟨?_, fun h => WaitForChange_error_last d script i c r e h he,
    fun h => WaitForChangeGroup_error_last d gt ch tag script i c r e h he, ?_⟩
  · intro h
    match script with
    | [] => simp [NewDirWatcher, answered] at h
    | x :: rest =>
      cases hx : x.err with
      | some e1 =>
        simp only [NewDirWatcher, hx] at h ⊢
        rcases i with _ | i
        · simp only [answered, List.getElem?_cons_zero, Option.some.injEq, Prod.mk.injEq] at h
          obtain ⟨rfl, rfl⟩ := h
          rw [hx] at he
          cases he
          exact ⟨rfl, rfl, rfl⟩
        · simp [answered] at h
      | none =>
        simp only [NewDirWatcher, hx] at h
        rcases i with _ | i
        · simp only [answered, List.getElem?_cons_zero, Option.some.injEq, Prod.mk.injEq] at h
          obtain ⟨rfl, rfl⟩ := h
          rw [hx] at he
          cases he
        · simp [answered] at h
  · intro x rest
    cases hx : x.err with
    | some e1 =>
      refine ⟨none, ?_, ?_, ?_⟩
      · simp only [NewDirWatcher, hx]
      · simp
      · intro h; cases h
    | none =>
      refine ⟨some ⟨x.val⟩, ?_, ?_, ?_⟩
      · simp only [NewDirWatcher, hx]
      · simp
      · intro _; rfl

/-- Witness of C9: the re-arm inside the drain loop fails with error 5. -/
theorem os_error_ends_operation_witness :
    (WaitForChangeGroup ⟨7⟩ 50 Chan.receiving "src"
      [signalled, rearmed, signalled, ⟨0, some 5⟩, signalled, rearmed]).ret =
      Outcome.returned (some 5) ∧
    (NewDirWatcher "dir" [⟨0, some 5⟩, signalled]).ret = Outcome.returned (none, some 5) :=
  ⟨((os_error_ends_operation ⟨7⟩ 50 Chan.receiving "src" "dir"
      [signalled, rearmed, signalled, ⟨0, some 5⟩, signalled, rearmed] 3
      (OSCall.FindNextChangeNotification 7) ⟨0, some 5⟩ 5 rfl).2.2.1 (by decide)).1,
    ((os_error_ends_operation ⟨7⟩ 50 Chan.receiving "src" "dir" [⟨0, some 5⟩, signalled] 0
      (OSCall.FindFirstChangeNotification "dir" true notifyFilter) ⟨0, some 5⟩ 5 rfl).1
      (by decide)).1⟩

/-! ## The notify filter -/

/-- C8: for every path, the registration call of `NewDirWatcher` is passed the
path, the subtree flag and a notify filter whose bits are exactly those of
file-name, directory-name, last-write and creation changes; the filter has none
of the bits of attribute, size, last-access or security changes. -/
theorem NewDirWatcher_notify_filter (path : String) (script : List OSResult) :
    (∃ ans, (NewDirWatcher path script).events =
      [Event.os (OSCall.FindFirstChangeNotification path true notifyFilter) ans]) ∧
    (∀ i : Nat, notifyFilter.testBit i =
      (FILE_NOTIFY_CHANGE_FILE_NAME.testBit i || FILE_NOTIFY_CHANGE_DIR_NAME.testBit i ||
        FILE_NOTIFY_CHANGE_LAST_WRITE.testBit i || FILE_NOTIFY_CHANGE_CREATION.testBit i)) ∧
    notifyFilter &&& FILE_NOTIFY_CHANGE_FILE_NAME = FILE_NOTIFY_CHANGE_FILE_NAME ∧
    notifyFilter &&& FILE_NOTIFY_CHANGE_DIR_NAME = FILE_NOTIFY_CHANGE_DIR_NAME ∧
    notifyFilter &&& FILE_NOTIFY_CHANGE_LAST_WRITE = FILE_NOTIFY_CHANGE_LAST_WRITE ∧
    notifyFilter &&& FILE_NOTIFY_CHANGE_CREATION = FILE_NOTIFY_CHANGE_CREATION ∧
    notifyFilter &&& FILE_NOTIFY_CHANGE_LAST_ACCESS = 0 ∧
    notifyFilter &&& FILE_NOTIFY_CHANGE_ATTRIBUTES = 0 ∧
    notifyFilter &&& FILE_NOTIFY_CHANGE_SIZE = 0 ∧
    notifyFilter &&& FILE_NOTIFY_CHANGE_SECURITY = 0 ∧
    notifyFilter = 0x53 := by
  refine ⟨?_, ?_, by decide, by decide, by decide, by decide, by decide, by decide, by decide,
    by decide, by decide⟩
  · match script with
    | [] => exact ⟨none, rfl⟩
    | x :: rest =>
      cases hx : x.err with
      | some e => exact ⟨some x, by simp only [NewDirWatcher, hx]⟩
      | none => exact ⟨some x, by simp only [NewDirWatcher, hx]⟩
  · intro i
    simp only [notifyFilter, Nat.testBit_or]

/-! ## The answers read and the unread script -/

/-- The answers read by the drain loop, in order, followed by the unread script,
make up the script. -/
theorem drainLoop_reads_prefix (d : DirWatcher) (gt : Nat) (s : List OSResult) :
    (answered (drainLoop d gt s).events).map Prod.snd ++ (drainLoop d gt s).rest = s := by
  refine drainLoop_induction d gt
    (fun s r => (answered r.events).map Prod.snd ++ r.rest = s) ?_ ?_ ?_ ?_ ?_ ?_ s
  · rfl
  · intros; rfl
  · intros; rfl
  · intros; rfl
  · intros; rfl
  · intro w a rest _ _ _ ih
    simp only [answered, List.map_cons, List.cons_append, ih]

/-- The answers read by `WaitForChangeGroup`, in order, followed by the unread
script, make up the script. -/
theorem WaitForChangeGroup_reads_prefix (d : DirWatcher) (gt : Nat) (ch : Chan) (tag : String)
    (script : List OSResult) :
    (answered (WaitForChangeGroup d gt ch tag script).events).map Prod.snd ++
      (WaitForChangeGroup d gt ch tag script).rest = script := by
  match script with
  | [] => rfl
  | w :: rest =>
    cases hw : w.err with
    | some e =>
      rw [WaitForChangeGroup_of_err d gt ch tag _ e (by rw [WaitForChange_err d w rest e hw]),
        WaitForChange_err d w rest e hw]
      rfl
    | none =>
      match rest with
      | [] =>
        rw [WaitForChangeGroup_of_blocked d gt ch tag _ (by rw [WaitForChange_single d w hw]),
          WaitForChange_single d w hw]
        rfl
      | a :: rest =>
        cases ha : a.err with
        | some e =>
          rw [WaitForChangeGroup_of_err d gt ch tag _ e
            (by rw [WaitForChange_rearm_err d w a rest e hw ha]),
            WaitForChange_rearm_err d w a rest e hw ha]
          rfl
        | none =>
          by_cases hch : ch = Chan.receiving
          · subst hch
            rw [WaitForChangeGroup_ok d gt tag w a rest hw ha]
            simp only [answered, List.map_cons, List.cons_append, drainLoop_reads_prefix]
          · obtain ⟨_, hev, hrest⟩ := WaitForChangeGroup_no_send d gt ch tag w a rest hw ha hch
            rw [hev, hrest]
            rfl

/-! ## `WAIT_TIMEOUT` and `WAIT_ABANDONED` end the drain loop alike -/

/-- In the drain loop, when the run stops at a wait answered `WAIT_TIMEOUT`, the
run on the script with that answer replaced by `WAIT_ABANDONED` stops at the
same wait with the same events before it. -/
theorem drainLoop_swap_terminator (d : DirWatcher) (gt : Nat) (post : List OSResult) :
    ∀ pre : List OSResult,
      (drainLoop d gt (pre ++ timedOut :: post)).ret = Outcome.returned none →
      (drainLoop d gt (pre ++ timedOut :: post)).rest = post →
      ∃ evs, (drainLoop d gt (pre ++ timedOut :: post)).events =
          evs ++ [Event.os (OSCall.WaitForSingleObject d.handle gt) (some timedOut)] ∧
        drainLoop d gt (pre ++ abandoned :: post) =
          ⟨Outcome.returned none,
            evs ++ [Event.os (OSCall.WaitForSingleObject d.handle gt) (some abandoned)],
            post⟩ := by
  suffices h : ∀ n (pre : List OSResult), pre.length = n →
      (drainLoop d gt (pre ++ timedOut :: post)).ret = Outcome.returned none →
      (drainLoop d gt (pre ++ timedOut :: post)).rest = post →
      ∃ evs, (drainLoop d gt (pre ++ timedOut :: post)).events =
          evs ++ [Event.os (OSCall.WaitForSingleObject d.handle gt) (some timedOut)] ∧
        drainLoop d gt (pre ++ abandoned :: post) =
          ⟨Outcome.returned none,
            evs ++ [Event.os (OSCall.WaitForSingleObject d.handle gt) (some abandoned)],
            post⟩ from fun pre => h _ pre rfl
  intro n
  induction n using Nat.strong_induction_on with
  | _ n ih =>
    intro pre hlen hret hrest
    match pre, hlen with
    | [], _ =>
      refine ⟨[], ?_, ?_⟩
      · rw [List.nil_append, drainLoop_stop d gt timedOut post rfl (Or.inl rfl)]
        rfl
      · rw [List.nil_append, drainLoop_stop d gt abandoned post rfl (Or.inr rfl)]
        rfl
    | w :: pre, hlen =>
      simp only [List.cons_append] at hret hrest ⊢
      cases hw : w.err with
      | some e =>
        rw [drainLoop_err d gt w _ e hw] at hret
        simp at hret
      | none =>
        by_cases hval : w.val = WAIT_TIMEOUT ∨ w.val = WAIT_ABANDONED
        · rw [drainLoop_stop d gt w _ hw hval] at hrest
          have hl := congrArg List.length hrest
          simp only [List.length_append, List.length_cons] at hl
          omega
        · match pre, hlen with
          | [], _ =>
            rw [List.nil_append] at hret hrest
            rw [drainLoop_step d gt w timedOut post hw hval rfl] at hret hrest
            have hlt := drainLoop_rest_lt d gt post (by
              simp only at hret
              rw [hret]
              simp)
            simp only at hrest
            rw [hrest] at hlt
            exact absurd hlt (lt_irrefl _)
          | a :: pre, hlen =>
            simp only [List.cons_append] at hret hrest ⊢
            cases ha : a.err with
            | some e =>
              rw [drainLoop_rearm_err d gt w a _ e hw hval ha] at hret
              simp at hret
            | none =>
              rw [drainLoop_step d gt w a _ hw hval ha] at hret hrest
              rw [drainLoop_step d gt w a (pre ++ timedOut :: post) hw hval ha,
                drainLoop_step d gt w a (pre ++ abandoned :: post) hw hval ha]
              simp only at hret hrest
              obtain ⟨evs, hev, hab⟩ := ih pre.length (by
                simp only [List.length_cons] at hlen
                omega) pre rfl hret hrest
              refine ⟨Event.os (OSCall.WaitForSingleObject d.handle gt) (some w) ::
                Event.os (OSCall.FindNextChangeNotification d.handle) (some a) :: evs, ?_, ?_⟩
              · simp only [hev, List.cons_append]
              · rw [hab]
                rfl

/-- C7: for every OS script on which `WaitForChangeGroup` returns nil having
read the script up to and including a wait answered `WAIT_TIMEOUT`, replacing
that terminating answer by `WAIT_ABANDONED` yields the same return value (nil),
the same messages on the channel, the same unread script and the same events up
to the final wait; in both runs the final wait is the last event, so no re-arm
follows it. -/
theorem WaitForChangeGroup_timeout_abandoned_alike (d : DirWatcher) (gt : Nat) (ch : Chan)
    (tag : String) (pre post : List OSResult)
    (hret : (WaitForChangeGroup d gt ch tag (pre ++ timedOut :: post)).ret =
      Outcome.returned none)
    (hrest : (WaitForChangeGroup d gt ch tag (pre ++ timedOut :: post)).rest = post) :
    (WaitForChangeGroup d gt ch tag (pre ++ abandoned :: post)).ret = Outcome.returned none ∧
    sent (WaitForChangeGroup d gt ch tag (pre ++ abandoned :: post)).events =
      sent (WaitForChangeGroup d gt ch tag (pre ++ timedOut :: post)).events ∧
    (WaitForChangeGroup d gt ch tag (pre ++ abandoned :: post)).rest = post ∧
    ∃ evs,
      (WaitForChangeGroup d gt ch tag (pre ++ timedOut :: post)).events =
        evs ++ [Event.os (OSCall.WaitForSingleObject d.handle gt) (some timedOut)] ∧
      (WaitForChangeGroup d gt ch tag (pre ++ abandoned :: post)).events =
        evs ++ [Event.os (OSCall.WaitForSingleObject d.handle gt) (some abandoned)] := by
  have hch := WaitForChangeGroup_returned_nil_receiving d gt ch tag _ hret
  subst hch
  match pre with
  | [] =>
    rw [List.nil_append] at hret hrest
    match post with
    | [] => simp [WaitForChangeGroup, WaitForChange, timedOut] at hret
    | a :: post =>
      cases ha : a.err with
      | some e =>
        rw [WaitForChangeGroup_of_err d gt _ tag _ e
          (by rw [WaitForChange_rearm_err d timedOut a post e rfl ha])] at hret
        simp at hret
      | none =>
        rw [WaitForChangeGroup_ok d gt tag timedOut a post rfl ha] at hrest
        have hle := drainLoop_rest_le d gt post
        simp only at hrest
        rw [hrest] at hle
        simp only [List.length_cons] at hle
        omega
  | [w] =>
    rw [List.cons_append, List.nil_append] at hret hrest
    cases hw : w.err with
    | some e =>
      rw [WaitForChangeGroup_of_err d gt _ tag _ e
        (by rw [WaitForChange_err d w _ e hw])] at hret
      simp at hret
    | none =>
      rw [WaitForChangeGroup_ok d gt tag w timedOut post hw rfl] at hret hrest
      have hlt := drainLoop_rest_lt d gt post (by
        simp only at hret
        rw [hret]
        simp)
      simp only at hrest
      rw [hrest] at hlt
      exact absurd hlt (lt_irrefl _)
  | w :: a :: pre =>
    simp only [List.cons_append] at hret hrest ⊢
    cases hw : w.err with
    | some e =>
      rw [WaitForChangeGroup_of_err d gt _ tag _ e
        (by rw [WaitForChange_err d w _ e hw])] at hret
      simp at hret
    | none =>
      cases ha : a.err with
      | some e =>
        rw [WaitForChangeGroup_of_err d gt _ tag _ e
          (by rw [WaitForChange_rearm_err d w a _ e hw ha])] at hret
        simp at hret
      | none =>
        rw [WaitForChangeGroup_ok d gt tag w a _ hw ha] at hret hrest
        rw [WaitForChangeGroup_ok d gt tag w a (pre ++ timedOut :: post) hw ha,
          WaitForChangeGroup_ok d gt tag w a (pre ++ abandoned :: post) hw ha]
        simp only at hret hrest
        obtain ⟨evs, hev, hab⟩ := drainLoop_swap_terminator d gt post pre hret hrest
        rw [hab]
        refine ⟨rfl, ?_, rfl,
          Event.os (OSCall.WaitForSingleObject d.handle INFINITE) (some w) ::
            Event.os (OSCall.FindNextChangeNotification d.handle) (some a) ::
            Event.send tag :: evs, ?_, ?_⟩
        · simp only [hev, sent, sent_append]
        · simp only [hev, List.cons_append]
        · simp only [List.cons_append]

/-- Witness of C7: a burst of two signals closed by a timeout. -/
theorem WaitForChangeGroup_timeout_abandoned_alike_witness :
    (WaitForChangeGroup ⟨7⟩ 50 Chan.receiving "src"
      ([signalled, rearmed, signalled, rearmed] ++ abandoned :: [signalled])).ret =
      Outcome.returned none ∧
    sent (WaitForChangeGroup ⟨7⟩ 50 Chan.receiving "src"
      ([signalled, rearmed, signalled, rearmed] ++ abandoned :: [signalled])).events =
      sent (WaitForChangeGroup ⟨7⟩ 50 Chan.receiving "src"
        ([signalled, rearmed, signalled, rearmed] ++ timedOut :: [signalled])).events :=
  ⟨(WaitForChangeGroup_timeout_abandoned_alike ⟨7⟩ 50 Chan.receiving "src"
      [signalled, rearmed, signalled, rearmed] [signalled] (by decide) (by decide)).1,
    (WaitForChangeGroup_timeout_abandoned_alike ⟨7⟩ 50 Chan.receiving "src"
      [signalled, rearmed, signalled, rearmed] [signalled] (by decide) (by decide)).2.1⟩

/-! ## Waits after `Close` -/

/-- C4, counterexample: a watcher is created on handle 7 and closed, both with
success; a second watcher is registered and the OS hands out the value 7 again;
a `WaitForChange` on the closed watcher then returns nil, and so does a
`WaitForChangeGroup`; and when the OS never answers the wait, the
`WaitForChange` on the closed watcher blocks.  Nothing in the watcher makes a
call after `Close` fail. -/
theorem wait_after_Close_counterexample :
    (NewDirWatcher "dir" reuseScript).ret = Outcome.returned (some ⟨7⟩, none) ∧
    (Close ⟨7⟩ (NewDirWatcher "dir" reuseScript).rest).ret = Outcome.returned none ∧
    (NewDirWatcher "other" (Close ⟨7⟩ (NewDirWatcher "dir" reuseScript).rest).rest).ret =
      Outcome.returned (some ⟨7⟩, none) ∧
    (WaitForChange ⟨7⟩
      (NewDirWatcher "other" (Close ⟨7⟩ (NewDirWatcher "dir" reuseScript).rest).rest).rest).ret =
      Outcome.returned none ∧
    (WaitForChangeGroup ⟨7⟩ 50 Chan.receiving "src"
      ((NewDirWatcher "other"
        (Close ⟨7⟩ (NewDirWatcher "dir" reuseScript).rest).rest).rest ++ [timedOut])).ret =
      Outcome.returned none ∧
    (WaitForChange ⟨7⟩ (Close ⟨7⟩ [⟨0, none⟩]).rest).ret = Outcome.blocked := by
  decide

/-- C4, amended: `Close` leaves the watcher as it is, so a later `WaitForChange`
or `WaitForChangeGroup` runs as it would without the `Close` and waits on the
closed handle; when the OS answers that wait with an error, the call returns
that error after this single OS call: it does not block and sends nothing. -/
theorem wait_after_Close (d : DirWatcher) (gt : Nat) (ch : Chan) (tag : String)
    (c w : OSResult) (post : List OSResult) (e : Errno) (hw : w.err = some e) :
    (∀ script : List OSResult,
      WaitForChange d (Close d (c :: script)).rest = WaitForChange d script ∧
      WaitForChangeGroup d gt ch tag (Close d (c :: script)).rest =
        WaitForChangeGroup d gt ch tag script) ∧
    WaitForChange d (Close d (c :: w :: post)).rest =
      ⟨Outcome.returned (some e),
        [Event.os (OSCall.WaitForSingleObject d.handle INFINITE) (some w)], post⟩ ∧
    WaitForChangeGroup d gt ch tag (Close d (c :: w :: post)).rest =
      ⟨Outcome.returned (some e),
        [Event.os (OSCall.WaitForSingleObject d.handle INFINITE) (some w)], post⟩ := by
  refine ⟨fun script => ⟨rfl, rfl⟩, ?_, ?_⟩
  · show WaitForChange d (w :: post) = _
    rw [WaitForChange_err d w post e hw]
  · show WaitForChangeGroup d gt ch tag (w :: post) = _
    rw [WaitForChangeGroup_of_err d gt ch tag _ e (by rw [WaitForChange_err d w post e hw]),
      WaitForChange_err d w post e hw]

/-- Witness of C4, amended: the OS rejects the wait on the closed handle with
error 6. -/
theorem wait_after_Close_witness :
    WaitForChange ⟨7⟩ (Close ⟨7⟩ [rearmed, ⟨WAIT_FAILED, some 6⟩, signalled]).rest =
      ⟨Outcome.returned (some 6),
        [Event.os (OSCall.WaitForSingleObject 7 INFINITE) (some ⟨WAIT_FAILED, some 6⟩)],
        [signalled]⟩ :=
  (wait_after_Close ⟨7⟩ 50 Chan.receiving "src" rearmed ⟨WAIT_FAILED, some 6⟩ [signalled] 6
    rfl).2.1

/-! ## `isPathWithinDirectory` -/

/-- For every relative-path function: an empty path or directory, or a failure
of the function, gives `false`, and otherwise the result is `false` exactly when
the relative path begins with two dots. -/
theorem isPathWithinDirectory_spec (rel : List Char → List Char → Option (List Char))
    (path dir : List Char) :
    (path = [] ∨ dir = [] → isPathWithinDirectory rel path dir = false) ∧
    (rel dir path = none → isPathWithinDirectory rel path dir = false) ∧
    (∀ r, path ≠ [] → dir ≠ [] → rel dir path = some r →
      (isPathWithinDirectory rel path dir = false ↔ ∃ t, r = '.' :: '.' :: t)) := by
  refine ⟨?_, ?_, ?_⟩
  · intro h
    simp only [isPathWithinDirectory, h, if_true]
  · intro h
    simp only [isPathWithinDirectory, h]
    split <;> rfl
  · intro r hp hd h
    have hne : ¬ (path = [] ∨ dir = []) := fun h1 => h1.elim hp hd
    simp only [isPathWithinDirectory, h, if_neg hne]
    match r with
    | [] => simp [List.isPrefixOf]
    | [c] => simp [List.isPrefixOf]
    | c1 :: c2 :: t =>
      simp only [List.isPrefixOf, Bool.and_true, Bool.not_eq_false_eq_eq_true, Bool.not_eq_false',
        Bool.and_eq_true, beq_iff_eq, List.cons.injEq, exists_eq', and_true]
      constructor
      · rintro ⟨rfl, rfl⟩
        exact ⟨t, rfl, rfl, rfl⟩
      · rintro ⟨_, rfl, rfl, _⟩
        exact ⟨rfl, rfl⟩

/-- C10, at the failing input: the path `C:\a\..b` is an entry of the directory
`C:\a`, its relative path from there is `..b`, and for every relative-path
function that gives this answer `isPathWithinDirectory` returns `false`. -/
theorem isPathWithinDirectory_dotdot_name
    (rel : List Char → List Char → Option (List Char))
    (h : rel dirA pathDotDotB = some ['.', '.', 'b']) :
    isPathWithinDirectory rel pathDotDotB dirA = false := by
  have hp : pathDotDotB ≠ [] := by decide
  have hd : dirA ≠ [] := by decide
  exact ((isPathWithinDirectory_spec rel pathDotDotB dirA).2.2 _ hp hd h).mpr ⟨['b'], rfl⟩

/-- Witness of C10: the relative path is computed by stripping the directory and
the separator. -/
theorem isPathWithinDirectory_dotdot_name_witness :
    pathDotDotB = dirA ++ Separator :: ['.', '.', 'b'] ∧
    relOfDescendant dirA pathDotDotB = some ['.', '.', 'b'] ∧
    isPathWithinDirectory relOfDescendant pathDotDotB dirA = false :=
  ⟨by decide, by decide, isPathWithinDirectory_dotdot_name relOfDescendant (by decide)⟩

end Regolith
